import Mathlib

/-!
Verification development for the clawutil data module
(`src/python/clawutil/clawdata.py`).

The Python module defines `ClawData`, a restricted-attribute record with a
textual codec (`data_write` / `read` / `_parse_value`), and several writer
subclasses (`ClawInputData`, `AmrclawInputData`, `GaugeData`, ...).  This file
shallowly embeds the data model and the operations those writers perform:

* Python strings are Lean `String`s (in this toolchain a `String` wraps a
  `List Char`); the string operations the source uses (`strip`, `split`,
  `split(sep)`, `ljust`, `replace`) are implemented below on `List Char`.
* Python values flowing through the records are modelled by `PyVal`.
  Python 2 `int` values are modelled by `Int` (their `repr` is the plain
  decimal form; `long` values, whose `repr` carries a trailing `L`, do not
  occur in the claims and are outside the model).  Python `float` values are
  modelled by their canonical shortest `repr` token (Python 2.7 guarantees
  `float(repr(x)) == x`, so the token determines the value); no theorem below
  depends on float canonicalisation or float arithmetic.
* A `ClawData` object is its ordered attribute list `_attributes`, its
  attribute dictionary, and the optional open output handle `_out_file`,
  modelled as the list of strings written to it so far (one entry per
  `write` call of the source).
* Exceptions are modelled by `PyErr`; stateful writers run in
  `EStateM PyErr ClawData`, whose results keep the record state at the point
  a Python exception would propagate (the file contents written before the
  exception exist on disk, and the object mutations persist).
-/

set_option autoImplicit false
set_option maxRecDepth 100000

namespace Clawdata

/-- The apostrophe character used by Python `repr` of strings. -/
def squote : Char := Char.ofNat 39

/-- The double-quote character. -/
def dquote : Char := Char.ofNat 34

/-- Whitespace test used by Python `str.strip()` / `str.split()`. -/
def isWs (c : Char) : Bool := c.isWhitespace

/-- `str.strip()` on the character list: drop leading and trailing whitespace. -/
def stripChars (l : List Char) : List Char :=
  ((l.dropWhile isWs).reverse.dropWhile isWs).reverse

/-- Python `value.strip()`. -/
def pyStrip (s : String) : String := ⟨stripChars s.data⟩

/-- Python `string.ljust(s, w)`: pad on the right with spaces to width `w`. -/
def pyLjust (s : String) (w : Nat) : String :=
  ⟨s.data ++ List.replicate (w - s.data.length) ' '⟩

/-- Python `str.split()` (no separator): the maximal runs of non-whitespace
characters, with all whitespace discarded.  Never produces empty tokens.
(Implemented by structural recursion: a non-whitespace character either
starts a fresh token — when what follows is empty or whitespace — or is
prepended to the token the rest begins with.) -/
def wsTokens : List Char → List (List Char)
  | [] => []
  | c :: cs =>
    if isWs c then wsTokens cs
    else
      match cs with
      | [] => [[c]]
      | d :: _ =>
        if isWs d then [c] :: wsTokens cs
        else
          match wsTokens cs with
          | t :: ts => (c :: t) :: ts
          | [] => [[c]]

/-- Python `line.split("=:")`: split at every left-to-right occurrence of
the two-character token `=:`.  On a string with no occurrence it returns
the one-element list holding the whole string. -/
def splitEq : List Char → List (List Char)
  | [] => [[]]
  | [c] => [[c]]
  | c1 :: c2 :: rest =>
    if c1 = '=' ∧ c2 = ':' then [] :: splitEq rest
    else
      match splitEq (c2 :: rest) with
      | [] => [[c1]]
      | r :: rs => (c1 :: r) :: rs

/-- Python `s.split(ch)` for a single-character separator (used for the `e`
of the float exponent grammar). -/
def splitCh (ch : Char) : List Char → List (List Char)
  | [] => [[]]
  | c :: cs =>
    if c = ch then [] :: splitCh ch cs
    else
      match splitCh ch cs with
      | [] => [[c]]
      | r :: rs => (c :: r) :: rs

/-- Remove every comma: Python `s.replace(',', '')` for the one-character
pattern `,` with empty replacement deletes exactly the commas. -/
def removeCommas (l : List Char) : List Char := l.filter (fun c => c ≠ ',')

/-- Our own join-with-separator (`List.intercalate` on character lists),
defined recursively so that the tokenisation lemmas go through by induction. -/
def joinSep (sep : List Char) : List (List Char) → List Char
  | [] => []
  | [t] => t
  | t :: t' :: ts => t ++ sep ++ joinSep sep (t' :: ts)

/-- Decimal digits, least significant first, with explicit fuel (structural
recursion; `fuel > n` always suffices since the argument at least halves). -/
def natToRevDigitsAux : Nat → Nat → List Nat
  | 0, _ => []
  | fuel + 1, n => if n < 10 then [n] else (n % 10) :: natToRevDigitsAux fuel (n / 10)

/-- Decimal digits of a natural number, least significant first
(`repr(0)` is `"0"`, so `0` yields `[0]`). -/
def natToRevDigits (n : Nat) : List Nat := natToRevDigitsAux (n + 1) n

/-- The character for a decimal digit `d < 10`. -/
def digitCh (d : Nat) : Char := Char.ofNat (48 + d)

/-- Python `repr` of a (Python 2 `int`-typed) natural number: plain decimal. -/
def natRepr (n : Nat) : String := ⟨(natToRevDigits n).reverse.map digitCh⟩

/-- Python `repr` of a Python 2 `int` value: decimal with a leading `-` when
negative. -/
def intRepr (n : Int) : String :=
  if n < 0 then ⟨'-' :: (natRepr n.natAbs).data⟩ else natRepr n.natAbs

/-- Is `c` one of the ten decimal digit characters? -/
def isDigitCh (c : Char) : Bool := 48 ≤ c.toNat ∧ c.toNat ≤ 57

/-- Parse an all-digits token as a natural number (the accepting core of
Python 2 `int(t)` on a stripped token). -/
def parseNatTok (l : List Char) : Option Nat :=
  if l ≠ [] ∧ l.all isDigitCh then
    some (l.foldl (fun a c => a * 10 + (c.toNat - 48)) 0)
  else none

/-- Python 2 `int(t)` on a whitespace-free token: an optional sign followed by
at least one decimal digit; anything else raises `ValueError` (modelled as
`none`). -/
def parseIntTok (l : List Char) : Option Int :=
  match l with
  | [] => none
  | c :: cs =>
    if c = '-' then (parseNatTok cs).map (fun m => -(m : Int))
    else if c = '+' then (parseNatTok cs).map (fun m => (m : Int))
    else (parseNatTok (c :: cs)).map (fun m => (m : Int))

/-- Does `l` consist only of decimal digits and at most one `.`, with at
least one digit?  (The mantissa grammar of Python `float()`.) -/
def floatMantissaOk (l : List Char) : Bool :=
  l.all (fun c => isDigitCh c || c = '.') &&
    (l.filter (fun c => c = '.')).length ≤ 1 &&
    (l.filter isDigitCh).length ≥ 1

/-- Strip one optional leading sign character. -/
def dropSign (l : List Char) : List Char :=
  match l with
  | c :: cs => if c = '-' || c = '+' then cs else c :: cs
  | [] => []

/-- Does Python 2 `float(t)` accept the whitespace-free token `t`?  The
grammar: optional sign, then either a decimal mantissa with optional
exponent part, or one of the words `inf`, `infinity`, `nan`
(case-insensitive). -/
def floatAccepts (l : List Char) : Bool :=
  let body := dropSign l
  let lower := body.map Char.toLower
  if lower = ['i', 'n', 'f'] || lower = ['i', 'n', 'f', 'i', 'n', 'i', 't', 'y'] ||
      lower = ['n', 'a', 'n'] then
    true
  else
    match splitCh 'e' (body.map Char.toLower) with
    | [m] => floatMantissaOk m
    | [m, ex] => floatMantissaOk m && (dropSign ex ≠ [] && (dropSign ex).all isDigitCh)
    | _ => false

/-! ## The value universe -/

/-- Python values stored in `ClawData` attributes.  `int` models Python 2
`int` (decimal `repr`); `float` models a Python 2.7 float by its canonical
shortest `repr` token, which determines the value (`float(repr(x)) == x`);
tuples and numpy arrays do not occur in the claims and are outside the
model.  `none` is Python `None`. -/
inductive PyVal where
  | none
  | int (n : Int)
  | float (tok : String)
  | bool (b : Bool)
  | str (s : String)
  | list (elems : List PyVal)

/-- Structural equality on `PyVal`, modelling Python `==` on values of equal
type (cross-type numeric equality is handled separately where the source
compares a field against an integer literal). -/
def pyValBeq : PyVal → PyVal → Bool
  | .none, .none => true
  | .int a, .int b => a == b
  | .float a, .float b => a == b
  | .bool a, .bool b => a == b
  | .str a, .str b => a == b
  | .list a, .list b => pyValListBeq a b
  | _, _ => false
where pyValListBeq : List PyVal → List PyVal → Bool
  | [], [] => true
  | x :: xs, y :: ys => pyValBeq x y && pyValListBeq xs ys
  | _, _ => false

instance : BEq PyVal := ⟨pyValBeq⟩

/-- Python 2 `repr` of a string without backslashes or control characters:
wrapped in single quotes, or in double quotes when the string itself
contains a single quote (and no double quote). -/
def pyStrRepr (s : String) : String :=
  if s.data.contains squote && !s.data.contains dquote then
    ⟨dquote :: (s.data ++ [dquote])⟩
  else
    ⟨squote :: (s.data ++ [squote])⟩

/-- Python `repr` of a `PyVal`.  Lists print as
`[e1, e2, ...]` with `repr` applied to each element. -/
def pyRepr : PyVal → String
  | .none => "None"
  | .int n => intRepr n
  | .float tok => tok
  | .bool b => if b then "True" else "False"
  | .str s => pyStrRepr s
  | .list l => ⟨'[' :: (joinSep [',', ' '] (pyReprList l) ++ [']'])⟩
where pyReprList : List PyVal → List (List Char)
  | [] => []
  | v :: vs => (pyRepr v).data :: pyReprList vs

/-- Python `str` of a `PyVal` (used by `"%s" % value` in error messages):
like `repr` except that strings print without quotes. -/
def pyStr : PyVal → String
  | .str s => s
  | v => pyRepr v

/-- The string `data_write` emits for a value (`clawdata.py` lines 209-222):
lists print as `repr(value)[1:-1]` with every comma removed, booleans as
`T`/`F`, everything else as its `repr`. -/
def dataEncode : PyVal → String
  | .list l => ⟨removeCommas (((pyRepr (.list l)).data.drop 1).dropLast)⟩
  | .bool b => if b then "T" else "F"
  | v => pyRepr v

/-! ## The heuristic value decoder (`ClawData._parse_value`) -/

/-- The scalar tail of `_parse_value` on a single stripped, whitespace-free,
non-empty token: try `int`, then `float`, then interpret a leading `T`/`F`
as a boolean, otherwise keep the token as a string.  A token accepted by
`float()` is kept as a float carrying the token (see `PyVal.float`). -/
def parseScalarTok (t : String) : PyVal :=
  match parseIntTok t.data with
  | some n => .int n
  | Option.none =>
    if floatAccepts t.data then .float t
    else
      match t.data with
      | c :: _ => if c = 'T' then .bool true else if c = 'F' then .bool false else .str t
      | [] => .str t

/-- `ClawData._parse_value` (lines 259-293): strip the value substring; an
empty result is `None`; several whitespace-separated tokens parse
recursively as a list (each token is whitespace-free, so the recursive
call takes the scalar path); a single token parses as a scalar. -/
def parseValue (s : String) : PyVal :=
  let v := pyStrip s
  match wsTokens v.data with
  | [] => .none
  | [_] => parseScalarTok v
  | ts => .list (ts.map (fun t => parseScalarTok ⟨t⟩))

/-! ## The record model (`ClawData`) -/

/-- Python exceptions raised by the module.  `attributeError` covers both the
explicit `raise AttributeError(...)` calls and attribute lookups on
missing names (for lookups the model stores the attribute name as the
message); `exception` is a bare `raise Exception(...)`. -/
inductive PyErr where
  | attributeError (msg : String)
  | valueError (msg : String)
  | typeError
  | indexError
  | nameError
  | exception (msg : String)
deriving DecidableEq, Repr

/-- A `ClawData` object: the ordered `_attributes` list, the attribute
dictionary (insertion-ordered association list), and `_out_file`,
modelled as the list of strings written so far (one entry per `write`
call on the handle), or `Option.none` when no file is open. -/
structure ClawData where
  attributes : List String
  values : List (String × PyVal)
  outFile : Option (List String)

/-- Dictionary lookup (`self.__getattribute__(name)` succeeds iff present). -/
def getVal (d : ClawData) (name : String) : Option PyVal :=
  (d.values.find? (fun p => p.1 == name)).map (·.2)

/-- Dictionary update (`object.__setattr__`): overwrite an existing binding
in place, else append. -/
def setVal (d : ClawData) (name : String) (v : PyVal) : ClawData :=
  if (d.values.find? (fun p => p.1 == name)).isSome then
    { d with values := d.values.map (fun p => if p.1 == name then (p.1, v) else p) }
  else
    { d with values := d.values ++ [(name, v)] }

/-- `ClawData.has_attribute` (line 118). -/
def hasAttribute (d : ClawData) (name : String) : Bool := d.attributes.contains name

/-- `ClawData.__setattr__` (lines 50-64): a name that is not declared is
rejected with `AttributeError` unless it starts with `_`; Python's `and`
short-circuits, so `name[0]` is evaluated only for undeclared names, and
for the empty name that subscript raises `IndexError`.  The two
bookkeeping names `_attributes` and `_out_file` are modelled by the
dedicated structure fields and are not assigned through this function
anywhere in the claims. -/
def clawSetattr (d : ClawData) (name : String) (v : PyVal) : Except PyErr ClawData :=
  if d.attributes.contains name then .ok (setVal d name v)
  else
    match name.data with
    | [] => .error .indexError
    | c :: _ =>
      if c ≠ '_' then .error (.attributeError ("Unrecognized attribute: " ++ name))
      else .ok (setVal d name v)

/-- `ClawData.add_attribute` (lines 75-88) with the default
`add_to_list=True` (no caller in the module passes `False`): append the
name to `_attributes` if new, then set the value unconditionally. -/
def addAttribute (d : ClawData) (name : String) (v : PyVal) : ClawData :=
  let d' :=
    if d.attributes.contains name then d
    else { d with attributes := d.attributes ++ [name] }
  setVal d' name v

/-! ## The read path (`ClawData.read`, lines 233-256) -/

/-- Process one line of a data file.  The source first tests `"=:" in line`
and skips lines without the token; `line.split("=:")` then yields the
single-element list exactly when the token is absent, so the two tests
are combined in the match.  Three or more parts make the unpacking
`value, tail = line.split("=:")` raise `ValueError`; `tail.split()[0]`
raises `IndexError` when the tail holds no token.  An undeclared name is
processed only when `force` is true: it is then declared via
`add_attribute`; a declared name is assigned via `setattr` (no type
check against the previous value). -/
def readLine (force : Bool) (d : ClawData) (line : String) : Except PyErr ClawData :=
  match splitEq line.data with
  | [_] => .ok d
  | [v, t] =>
    match wsTokens t with
    | [] => .error .indexError
    | n :: _ =>
      let name : String := ⟨n⟩
      if hasAttribute d name || force then
        let val := parseValue ⟨v⟩
        if hasAttribute d name then clawSetattr d name val
        else .ok (addAttribute d name val)
      else .ok d
  | _ => .error (.valueError "too many values to unpack")

/-- `ClawData.read(path, force)`: fold `readLine` over the lines of the
file (the model takes the file as its list of lines). -/
def clawRead (d : ClawData) (lines : List String) (force : Bool) : Except PyErr ClawData :=
  lines.foldlM (readLine force) d

/-! ## The writer monad

Stateful writers run in `EStateM PyErr ClawData`: an `error` result keeps
the record state at the raise point, matching Python, where the mutations
and the file contents written before an exception persist. -/

/-- The monad of the stateful writer methods. -/
abbrev M := EStateM PyErr ClawData

/-- The record state after running `x` on `d`, whether or not a Python
exception propagated. -/
def runState {α : Type} (x : M α) (d : ClawData) : ClawData :=
  match x.run d with
  | .ok _ s => s
  | .error _ s => s

/-- The exception `x` raises on `d`, if any. -/
def runError {α : Type} (x : M α) (d : ClawData) : Option PyErr :=
  match x.run d with
  | .ok _ _ => Option.none
  | .error e _ => some e

/-- `self.__getattribute__(name)` / plain `self.name` reads. -/
def getattrM (name : String) : M PyVal := do
  match getVal (← get) name with
  | some v => pure v
  | Option.none => throw (.attributeError name)

/-- `self.name = value` writes (through `ClawData.__setattr__`). -/
def setattrM (name : String) (v : PyVal) : M Unit := do
  match clawSetattr (← get) name v with
  | .ok d' => set d'
  | .error e => throw e

/-- In-place mutation of an attribute's stored object (list element
assignment such as `self.limiter[i] = 0` does not go through
`__setattr__`; its net effect on the dictionary is a direct update). -/
def setValM (name : String) (v : PyVal) : M Unit := modify (setVal · name v)

/-- The five-line warning banner (plus trailing blank line) that
`open_data_file` writes, one list entry per `write` call
(lines 157-161). -/
def bannerChunks (src : String) : List String :=
  [ "########################################################\n",
    "### DO NOT EDIT THIS FILE:  GENERATED AUTOMATICALLY ####\n",
    "### To modify data, edit  " ++ pyLjust src 25 ++ " ####\n",
    "###    and then \"make .data\"                        ####\n",
    "########################################################\n\n" ]

/-- `ClawData.open_data_file` (lines 141-161): unconditionally rebinds
`self._out_file` to a fresh handle (any previously open handle is
replaced without being closed) and writes the banner.  The filesystem
path is not part of the model. -/
def openDataFileM (_name src : String) : M Unit :=
  modify (fun d => { d with outFile := some (bannerChunks src) })

/-- A raw `self._out_file.write(s)`: on a closed handle (`None`) the
attribute access `None.write` raises `AttributeError`. -/
def fileWriteM (s : String) : M Unit := do
  match (← get).outFile with
  | some chunks => modify (fun d => { d with outFile := some (chunks ++ [s]) })
  | Option.none => throw (.attributeError "write")

/-- `ClawData.close_data_file` (lines 164-167): `self._out_file.close()`
then `self._out_file = None`; on an already-closed record `None.close()`
raises `AttributeError`. -/
def closeDataFileM : M Unit := do
  match (← get).outFile with
  | Option.none => throw (.attributeError "close")
  | some _ => modify (fun d => { d with outFile := Option.none })

/-- The one formatted field line `data_write` emits (lines 223-230). -/
def formatLine (sv : String) (alt : String) (descr : String) : String :=
  if descr = "" then pyLjust sv 20 ++ " =: " ++ pyLjust alt 20 ++ "\n"
  else pyLjust sv 20 ++ " =: " ++ pyLjust alt 20 ++ " # " ++ descr ++ " \n"

/-- `ClawData.data_write(name, value, alt_name, description)`
(lines 181-230).  A `None` (= `PyVal.none`) value argument is
indistinguishable from an absent one: the source tests `value is None`
and then fetches `self.__getattribute__(name)`.  With both `name` and
`value` `None` a bare newline is written.  `alt_name` defaults to
`name`; `string.ljust(None, 20)` on a still-`None` label raises
`TypeError`. -/
def dataWriteM (name : Option String) (value : PyVal) (altName : Option String)
    (descr : String) : M Unit := do
  let d ← get
  match d.outFile with
  | Option.none => throw (.exception "No file currently open for output.")
  | some _ =>
    let alt := match altName with | some a => some a | Option.none => name
    match name, value with
    | Option.none, .none => fileWriteM "\n"
    | nm, vl => do
      let v ←
        match vl with
        | .none =>
          (match nm with
           | some n => getattrM n
           | Option.none => throw PyErr.typeError)
        | w => pure w
      match alt with
      | Option.none => throw PyErr.typeError
      | some a => fileWriteM (formatLine (dataEncode v) a descr)

/-- `self.data_write(n)`: write the stored value of attribute `n`. -/
def dw (n : String) : M Unit := dataWriteM (some n) .none Option.none ""

/-- `self.data_write()`: write a blank separator line. -/
def dwBlank : M Unit := dataWriteM Option.none .none Option.none ""

/-! ## Python comparison and builtin helpers used by the writers -/

/-- Lift a pure `Except` computation into the writer monad. -/
def liftE {α : Type} : Except PyErr α → M α
  | .ok a => pure a
  | .error e => throw e

/-- Python `v == k` for an integer literal `k`: numeric equality for ints
and bools (`True == 1`); strings, `None` and lists compare unequal to
integers.  Numeric equality of a float-valued field to an integer is not
representable in the token model and does not occur in the claims. -/
def pyEqI : PyVal → Int → Bool
  | .int m, k => m == k
  | .bool b, k => (if b then (1 : Int) else 0) == k
  | _, _ => false

/-- Python `v in [k, s]` for the mixed int/string option lists used in the
normalisation branches (e.g. `self.transverse_waves in [2,'all']`). -/
def pyInIS (v : PyVal) (k : Int) (s : String) : Bool :=
  pyEqI v k || (match v with | .str t => t == s | _ => false)

/-- Python `len(v)`: defined for lists and strings, `TypeError` otherwise. -/
def pyLenE : PyVal → Except PyErr Nat
  | .list l => .ok l.length
  | .str s => .ok s.data.length
  | _ => .error PyErr.typeError

/-- Python `v > 0` for the `num_aux > 0` tests: ints and bools compare
numerically.  (Python 2's cross-type ordering of strings or lists
against integers does not arise for these integer-defaulted fields and
is outside the model.) -/
def pyGtZeroE : PyVal → Except PyErr Bool
  | .int n => .ok (0 < n)
  | .bool b => .ok b
  | _ => .error PyErr.typeError

/-- Coerce to a Python int (`range(v)`, `abs(v)` arguments). -/
def pyIntE : PyVal → Except PyErr Int
  | .int n => .ok n
  | .bool b => .ok (if b then 1 else 0)
  | _ => .error PyErr.typeError

/-- `self.num_eqn * [e]`: Python list repetition (negative counts give the
empty list). -/
def pyMulList : PyVal → PyVal → Except PyErr PyVal
  | .int n, e => .ok (.list (List.replicate n.toNat e))
  | .bool b, e => .ok (.list (List.replicate (if b then 1 else 0) e))
  | _, _ => .error PyErr.typeError

/-- Python truthiness (used by the `np.where(x, 1, 0)` model).  A float is
falsy exactly when it is zero; in the token model the canonical zero
tokens are recognised. -/
def pyTruthy : PyVal → Bool
  | .none => false
  | .int n => n ≠ 0
  | .float t => !(t == "0.0" || t == "-0.0")
  | .bool b => b
  | .str s => s ≠ ""
  | .list l => !l.isEmpty

/-- `np.where(x, 1, 0)` on a list, composed with the `list(...)` conversion
`data_write` applies to the resulting array.  A non-list argument
(scalar broadcast to a 0-d array) does not occur in the claims. -/
def npWhere : PyVal → Except PyErr PyVal
  | .list l => .ok (.list (l.map (fun e => PyVal.int (if pyTruthy e then 1 else 0))))
  | _ => .error PyErr.typeError

/-! ## `ClawInputData.write` (lines 437-610) -/

/-- The header fields written right after opening (lines 441-453). -/
def clawHeaderFields : M Unit := do
  dw "num_dim"
  dw "lower"
  dw "upper"
  dw "num_cells"
  dwBlank
  dw "num_eqn"
  dw "num_waves"
  dw "num_aux"
  dwBlank
  dw "t0"
  dwBlank
  dw "output_style"

/-- Lines 439-453 of `ClawInputData.write`: open the file and emit the
fields up to and including `output_style`. -/
def clawPrefix (out src : String) : M Unit := do
  openDataFileM out src
  clawHeaderFields

/-- The `output_style` selector cascade (lines 455-472) applied to the
value read from the record. -/
def clawStyleCore (s : PyVal) : M Unit := do
  if pyEqI s 1 then do
    dw "num_output_times"
    dw "tfinal"
    dw "output_t0"
  else if pyEqI s 2 then do
    let ts ← getattrM "output_times"
    let n ← liftE (pyLenE ts)
    if n = 0 then
      throw (.attributeError "*** output_style==2 requires nonempty list of output times")
    setattrM "num_output_times" (.int n)
    dw "num_output_times"
    dw "output_times"
  else if pyEqI s 3 then do
    dw "output_step_interval"
    dw "total_steps"
    dw "output_t0"
  else
    throw (.attributeError ("*** Unrecognized output_style: " ++ pyStr s))

/-- Lines 455-472: the `output_style` selector branch.  The source re-reads
`self.output_style` in each `elif`; no write intervenes, so one read
feeding the cascade is equivalent. -/
def clawStyleSection : M Unit := do
  let s ← getattrM "output_style"
  clawStyleCore s

/-- One step of the limiter normalisation (lines 563-570). -/
def normLimiter (e : PyVal) : Except PyErr PyVal :=
  if pyInIS e 0 "none" then .ok (.int 0)
  else if pyInIS e 1 "minmod" then .ok (.int 1)
  else if pyInIS e 2 "superbee" then .ok (.int 2)
  else if pyInIS e 3 "mc" then .ok (.int 3)
  else if pyInIS e 4 "vanleer" then .ok (.int 4)
  else .error (.attributeError ("Unrecognized limiter: " ++ pyStr e))

/-- The loop `for i in range(len(self.limiter))` (lines 562-570): each
iteration re-reads the list, normalises element `i` and assigns it in
place (list element assignment bypasses `__setattr__`). -/
def limiterLoop : Nat → Nat → M Unit
  | 0, _ => pure ()
  | fuel + 1, i => do
    let lim ← getattrM "limiter"
    match lim with
    | .list l =>
      match l.get? i with
      | some e => do
        let e' ← liftE (normLimiter e)
        setValM "limiter" (.list (l.set i e'))
        limiterLoop fuel (i + 1)
      | Option.none => throw PyErr.indexError
    | _ => throw PyErr.typeError

/-- One step of the boundary-condition normalisation (lines 577-583 /
587-593); the error message carries the field name. -/
def normBc (name : String) (e : PyVal) : Except PyErr PyVal :=
  if pyInIS e 0 "user" then .ok (.int 0)
  else if pyInIS e 1 "extrap" then .ok (.int 1)
  else if pyInIS e 2 "periodic" then .ok (.int 2)
  else if pyInIS e 3 "wall" then .ok (.int 3)
  else .error (.attributeError ("Unrecognized " ++ name ++ ": " ++ pyStr e))

/-- The loop `for i in range(self.num_dim)` over `bc_lower` / `bc_upper`
(lines 576-594). -/
def bcLoop (name : String) : Nat → Nat → M Unit
  | 0, _ => pure ()
  | fuel + 1, i => do
    let bc ← getattrM name
    match bc with
    | .list l =>
      match l.get? i with
      | some e => do
        let e' ← liftE (normBc name e)
        setValM name (.list (l.set i e'))
        bcLoop name fuel (i + 1)
      | Option.none => throw PyErr.indexError
    | _ => throw PyErr.typeError

/-- Lines 476-485: normalise `output_format`.  Note line 484: the
`raise ValueError(...)` for an unrecognised `output_format` references
the undefined name `clawdata` while building its argument, so what
actually propagates is a `NameError`. -/
def clawOutputFormatBlock : M Unit := do
  let fmt ← getattrM "output_format"
  if pyInIS fmt 1 "ascii" then setattrM "output_format" (.int 1)
  else if pyInIS fmt 2 "netcdf" then setattrM "output_format" (.int 2)
  else if pyInIS fmt 3 "binary" then setattrM "output_format" (.int 3)
  else throw PyErr.nameError

/-- Lines 488-496: compute and write `iout_q`. -/
def clawIoutQBlock : M Unit := do
  let qc ← getattrM "output_q_components"
  let ne ← getattrM "num_eqn"
  let ioutQ ←
    if pyValBeq qc (.str "all") then liftE (pyMulList ne (.int 1))
    else if pyValBeq qc (.str "none") then liftE (pyMulList ne (.int 0))
    else liftE (npWhere qc)
  dataWriteM (some "") ioutQ (some "iout_q") ""

/-- Lines 498-506: the `num_aux > 0` aux-output section. -/
def clawAuxBlock : M Unit := do
  let na ← getattrM "num_aux"
  let naPos ← liftE (pyGtZeroE na)
  if naPos then do
    let ac ← getattrM "output_aux_components"
    let ioutAux ←
      if pyValBeq ac (.str "all") then liftE (pyMulList na (.int 1))
      else if pyValBeq ac (.str "none") then liftE (pyMulList na (.int 0))
      else liftE (npWhere ac)
    dataWriteM (some "") ioutAux (some "iout_aux") ""
    dw "output_aux_onlyonce"

/-- Lines 521-529: normalise `transverse_waves`. -/
def normTransverseBlock : M Unit := do
  let tw ← getattrM "transverse_waves"
  if pyInIS tw 0 "none" then setattrM "transverse_waves" (.int 0)
  else if pyInIS tw 1 "increment" then setattrM "transverse_waves" (.int 1)
  else if pyInIS tw 2 "all" then setattrM "transverse_waves" (.int 2)
  else throw (.attributeError ("Unrecognized transverse_waves: " ++ pyStr tw))

/-- Lines 532-540: normalise `dimensional_split`. -/
def normDimSplitBlock : M Unit := do
  let ds ← getattrM "dimensional_split"
  if pyInIS ds 0 "unsplit" then setattrM "dimensional_split" (.int 0)
  else if pyInIS ds 1 "godunov" then setattrM "dimensional_split" (.int 1)
  else if pyInIS ds 2 "strang" then setattrM "dimensional_split" (.int 2)
  else throw (.attributeError ("Unrecognized dimensional_split: " ++ pyStr ds))

/-- Lines 518-541: the multi-dimensional `transverse_waves` /
`dimensional_split` section.  Line 530 passes the builtin `file` as the
`name` argument of `data_write`; the value argument is supplied, so that
name is never consulted. -/
def clawSplitBlock : M Unit := do
  let nd ← getattrM "num_dim"
  if pyEqI nd 1 then pure ()
  else do
    normTransverseBlock
    let tw' ← getattrM "transverse_waves"
    dataWriteM (some "file") tw' (some "transverse_waves") ""
    normDimSplitBlock
    dw "dimensional_split"

/-- Lines 545-553: normalise `source_split`. -/
def clawSourceSplitBlock : M Unit := do
  let ss ← getattrM "source_split"
  if pyInIS ss 0 "none" then setattrM "source_split" (.int 0)
  else if pyInIS ss 1 "godunov" then setattrM "source_split" (.int 1)
  else if pyInIS ss 2 "strang" then setattrM "source_split" (.int 2)
  else throw (.attributeError ("Unrecognized source_split: " ++ pyStr ss))

/-- Lines 557-558: write `aux_type` when `num_aux > 0` (again with the
builtin `file` as the unused name argument). -/
def clawAuxTypeBlock : M Unit := do
  let na2 ← getattrM "num_aux"
  let na2Pos ← liftE (pyGtZeroE na2)
  if na2Pos then do
    let atype ← getattrM "aux_type"
    dataWriteM (some "file") atype (some "aux_type") ""

/-- Lines 562-570: the limiter normalisation loop. -/
def clawLimiterBlock : M Unit := do
  let lim ← getattrM "limiter"
  let cnt ← liftE (pyLenE lim)
  limiterLoop cnt 0

/-- Lines 576-583 / 586-593: one boundary-condition normalisation loop
over `range(self.num_dim)`. -/
def clawBcBlock (name : String) : M Unit := do
  let nd ← getattrM "num_dim"
  let ndi ← liftE (pyIntE nd)
  bcLoop name ndi.toNat 0

/-- Lines 600-608: the `checkpt_style` selector. -/
def clawCheckptBlock : M Unit := do
  let cs ← getattrM "checkpt_style"
  if pyEqI cs 2 then do
    let ct ← getattrM "checkpt_times"
    let nct ← liftE (pyLenE ct)
    dataWriteM (some "") (.int nct) (some "num_checkpt_times") ""
    dw "checkpt_times"
  else if pyEqI cs 3 then dw "checkpt_interval"
  else if !(pyEqI cs 0 || pyEqI cs 1) then
    throw (.attributeError ("*** Unrecognized checkpt_style: " ++ pyStr cs))

/-- Lines 475-610 of `ClawInputData.write`: everything after the
`output_style` branch, in source order.  `ClawInputData.write` never
calls `close_data_file`: the handle stays open on every exit path. -/
def clawPostStyle : M Unit := do
  dwBlank
  clawOutputFormatBlock
  dw "output_format"
  clawIoutQBlock
  clawAuxBlock
  dwBlank
  dw "dt_initial"
  dw "dt_max"
  dw "cfl_max"
  dw "cfl_desired"
  dw "steps_max"
  dwBlank
  dw "dt_variable"
  dw "order"
  clawSplitBlock
  dw "verbosity"
  clawSourceSplitBlock
  dw "source_split"
  dw "capa_index"
  clawAuxTypeBlock
  dw "use_fwaves"
  dwBlank
  clawLimiterBlock
  dw "limiter"
  dwBlank
  dw "num_ghost"
  clawBcBlock "bc_lower"
  dw "bc_lower"
  clawBcBlock "bc_upper"
  dw "bc_upper"
  dwBlank
  dw "restart"
  dw "restart_file"
  dw "checkpt_style"
  clawCheckptBlock
  dwBlank

/-- `ClawInputData.write(out_file, data_source)` (lines 437-610). -/
def clawInputWrite (out src : String) : M Unit := do
  clawPrefix out src
  clawStyleSection
  clawPostStyle

/-! ## `AmrclawInputData.write` (lines 664-713) -/

/-- One refinement-ratio length check (lines 671-686): raise `ValueError`
when the list is shorter than `num_ratios`. -/
def amrRatioCheck (name : String) (numRatios : Int) : M Unit := do
  let r ← getattrM name
  let len ← liftE (pyLenE r)
  if (len : Int) < numRatios then
    throw (.valueError
      ("*** Error in data parameter: require len(" ++ name ++ ") >= " ++
        intRepr numRatios ++ " "))

/-- Lines 677-687: write the `x` and `y` ratio lists, handle the
three-dimensional `z` list, then check and write the `t` list. -/
def amrRatioWrites (numRatios : Int) : M Unit := do
  dw "refinement_ratios_x"
  dw "refinement_ratios_y"
  let nd ← getattrM "num_dim"
  if pyEqI nd 3 then do
    amrRatioCheck "refinement_ratios_z" numRatios
    dw "refinement_ratios_z"
  amrRatioCheck "refinement_ratios_t" numRatios
  dw "refinement_ratios_t"

/-- Lines 668-687: write `amr_levels_max`, compute
`num_ratios = max(abs(self.amr_levels_max)-1, 1)`, check and write the
refinement-ratio lists (the `z` list only in three dimensions). -/
def amrRatioBlock : M Unit := do
  dw "amr_levels_max"
  let a ← getattrM "amr_levels_max"
  let ai ← liftE (pyIntE a)
  let numRatios : Int := max ((ai.natAbs : Int) - 1) 1
  amrRatioCheck "refinement_ratios_x" numRatios
  amrRatioCheck "refinement_ratios_y" numRatios
  amrRatioWrites numRatios

/-- `AmrclawInputData.write` (lines 664-713): the inherited
`ClawInputData.write`, then the AMR fields.  Like the superclass method
it never closes the file. -/
def amrclawWrite (out src : String) : M Unit := do
  clawInputWrite out src
  amrRatioBlock
  dwBlank
  dw "flag_richardson"
  dw "flag_richardson_tol"
  dw "flag2refine"
  dw "flag2refine_tol"
  dw "regrid_interval"
  dw "regrid_buffer_width"
  dw "clustering_cutoff"
  dw "verbosity_regrid"
  dwBlank
  dwBlank
  dw "dprint"
  dw "eprint"
  dw "edebug"
  dw "gprint"
  dw "nprint"
  dw "pprint"
  dw "rprint"
  dw "sprint"
  dw "tprint"
  dw "uprint"
  dwBlank

/-! ## `GaugeData.write` (lines 919-957) -/

/-- The `gauge_numbers` property (lines 922-927): the first component of
each gauge entry, evaluated left to right.  (The source special-cases a
single gauge as `[self.gauges[0][0]]`, which coincides with the
comprehension.)  Indexing an empty or non-list entry raises. -/
def gaugeNumbersE : List PyVal → Except PyErr (List PyVal)
  | [] => .ok []
  | g :: gs =>
    match g with
    | .list (x :: _) => do
      let rest ← gaugeNumbersE gs
      .ok (x :: rest)
    | .list [] => .error PyErr.indexError
    | _ => .error PyErr.typeError

/-- Right-justification used by the `%4i`-style conversions. -/
def pyRjust (s : String) (w : Nat) : String :=
  ⟨List.replicate (w - s.data.length) ' ' ++ s.data⟩

/-- A `%{w}i` conversion of a gauge number. -/
def fmtIntField (w : Nat) : PyVal → Except PyErr String
  | .int n => .ok (pyRjust (intRepr n) w)
  | .bool b => .ok (pyRjust (if b then "1" else "0") w)
  | _ => .error PyErr.typeError

/-- A `%{w}.{p}e` conversion of a gauge coordinate.  The fixed-precision
scientific rendering of the underlying IEEE value is not computable in
the token model; the model records which value was formatted.  No claim
inspects the formatted digits. -/
def fmtEField (w : Nat) : PyVal → Except PyErr String
  | .float t => .ok (pyRjust t w)
  | .int n => .ok (pyRjust (intRepr n) w)
  | .bool b => .ok (pyRjust (if b then "1" else "0") w)
  | _ => .error PyErr.typeError

/-- One gauge line,
`"%4i %19.10e  %17.10e  %13.6e  %13.6e\n" % tuple(gauge)` (line 956):
the tuple must have exactly five items. -/
def gaugeLineE (g : PyVal) : Except PyErr String :=
  match g with
  | .list [a, b, c, d, e] => do
    let s1 ← fmtIntField 4 a
    let s2 ← fmtEField 19 b
    let s3 ← fmtEField 17 c
    let s4 ← fmtEField 13 d
    let s5 ← fmtEField 13 e
    .ok (s1 ++ " " ++ s2 ++ "  " ++ s3 ++ "  " ++ s4 ++ "  " ++ s5 ++ "\n")
  | _ => .error PyErr.typeError

/-- The `for gauge in self.gauges` emission loop (lines 955-956). -/
def gaugeLinesLoop : List PyVal → M Unit
  | [] => pure ()
  | g :: gs => do
    let line ← liftE (gaugeLineE g)
    fileWriteM line
    gaugeLinesLoop gs

/-- View of `self.gauges` as a list (a no-op in Python; errors are the
TypeError a non-sequence would raise on iteration). -/
def gaugeListE : PyVal → Except PyErr (List PyVal)
  | .list l => .ok l
  | _ => .error PyErr.typeError

/-- Lines 947-950 of `GaugeData.write`: the uniqueness check
(`len(gauge_numbers) != len(set(gauge_numbers))`, the set cardinality
being the number of pairwise-distinct gauge numbers), performed before
the output file is opened.  The failure is a bare
`Exception("Non unique gauge numbers specified.")`; the offending
number is not part of the message. -/
def gaugeCheck : M Unit := do
  let gs0 ← getattrM "gauges"
  let n ← liftE (pyLenE gs0)
  if n > 0 then do
    let gs ← liftE (gaugeListE gs0)
    let nums ← liftE (gaugeNumbersE gs)
    if nums.length ≠ nums.eraseDups.length then
      throw (.exception "Non unique gauge numbers specified.")

/-- Lines 952-957 of `GaugeData.write`: open the file, write `ngauges`
and one line per gauge, and close the file. -/
def gaugeWriteBody (out src : String) : M Unit := do
  openDataFileM out src
  let gs1 ← getattrM "gauges"
  let n1 ← liftE (pyLenE gs1)
  dataWriteM (some "ngauges") (.int n1) Option.none ""
  let l ← liftE (gaugeListE gs1)
  gaugeLinesLoop l
  closeDataFileM

/-- `GaugeData.write(out_file, data_source)` (lines 944-957). -/
def gaugeWrite (out src : String) : M Unit := do
  gaugeCheck
  gaugeWriteBody out src

/-! ## Default states (`__init__` methods) -/

/-- A freshly constructed `ClawData()`: empty attribute list, no file. -/
def emptyClawData : ClawData := ⟨[], [], Option.none⟩

/-- Fold `add_attribute` over an ordered name/value list. -/
def addAttrs (d : ClawData) (l : List (String × PyVal)) : ClawData :=
  l.foldl (fun d p => addAttribute d p.1 p.2) d

/-- The `ClawInputData.__init__` defaults for `num_dim = 2`
(lines 375-434); float defaults carry their Python 2.7 `repr` tokens. -/
def clawInputDefault2 : ClawData :=
  addAttrs emptyClawData
    [ ("num_dim", .int 2), ("num_eqn", .int 1), ("num_waves", .int 1),
      ("num_aux", .int 0), ("output_style", .int 1), ("output_times", .list []),
      ("num_output_times", .none), ("output_t0", .bool true),
      ("output_step_interval", .none), ("total_steps", .none), ("tfinal", .none),
      ("output_format", .int 1), ("output_q_components", .str "all"),
      ("output_aux_components", .list []), ("output_aux_onlyonce", .bool true),
      ("dt_initial", .float "1e-05"), ("dt_max", .float "1e+99"),
      ("dt_variable", .int 1), ("cfl_desired", .float "0.9"),
      ("cfl_max", .float "1.0"), ("steps_max", .int 50000), ("order", .int 2),
      ("transverse_waves", .int 2), ("dimensional_split", .int 0),
      ("verbosity", .int 0), ("verbosity_regrid", .int 0), ("source_split", .int 0),
      ("capa_index", .int 0), ("limiter", .list [.int 4]), ("t0", .float "0.0"),
      ("num_ghost", .int 2), ("use_fwaves", .bool false), ("restart", .bool false),
      ("restart_file", .str ""),
      ("lower", .list [.float "0.0", .float "0.0"]),
      ("upper", .list [.float "1.0", .float "1.0"]),
      ("num_cells", .list [.int 100, .int 100]),
      ("bc_lower", .list [.int 0, .int 0]),
      ("bc_upper", .list [.int 0, .int 0]) ]

/-- The additional `AmrclawInputData.__init__` defaults for `num_dim = 2`
(lines 620-661), added on top of the inherited ones. -/
def amrclawDefault2 : ClawData :=
  addAttrs clawInputDefault2
    [ ("amr_levels_max", .int 1),
      ("refinement_ratios_x", .list [.int 1]),
      ("refinement_ratios_y", .list [.int 1]),
      ("variable_dt_refinement_ratios", .bool false),
      ("refinement_ratios_t", .list [.int 1]),
      ("aux_type", .list []),
      ("checkpt_style", .int 1), ("checkpt_interval", .int 1000),
      ("checkpt_time_interval", .float "1000.0"),
      ("checkpt_times", .list [.float "1000.0"]),
      ("flag_richardson", .bool false), ("flag_richardson_tol", .float "1.0"),
      ("flag2refine", .bool true), ("flag2refine_tol", .float "0.05"),
      ("regrid_interval", .int 2), ("regrid_buffer_width", .int 3),
      ("clustering_cutoff", .float "0.7"),
      ("dprint", .bool false), ("eprint", .bool false), ("edebug", .bool false),
      ("gprint", .bool false), ("nprint", .bool false), ("pprint", .bool false),
      ("rprint", .bool false), ("sprint", .bool false), ("tprint", .bool false),
      ("uprint", .bool false) ]

/-- A freshly constructed `GaugeData()` (lines 929-932). -/
def gaugeDefault : ClawData := addAttribute emptyClawData "gauges" (.list [])

/-! ## Derived notions and concrete scenario states used by the claims -/

/-- A clean single token: non-empty, and free of whitespace, commas and `=`
characters, so that it survives the line format (padding/stripping, the
`=:` split, comma removal and whitespace tokenisation) unchanged. -/
def goodTokB (l : List Char) : Bool :=
  !l.isEmpty && l.all (fun c => !isWs c && c ≠ ',' && c ≠ '=')

/-- An element value whose `repr` is a clean token that the scalar decoder
maps back to the value itself (ints, booleans, and canonical float
tokens all qualify). -/
def elemOk (e : PyVal) : Prop :=
  goodTokB (pyRepr e).data = true ∧ parseScalarTok (pyRepr e) = e

/-- Is the value a Python list? -/
def isListVal : PyVal → Bool
  | .list _ => true
  | _ => false

/-- The value substring of a field line: what stands before the first `=:`
(`line.split("=:")` position 0). -/
def valuePartOf (line : String) : String :=
  match splitEq line.data with
  | v :: _ => ⟨v⟩
  | [] => ""

/-- Encode a scalar with the field writer's line construction and decode the
value substring with the heuristic parser. -/
def scalarLineRoundtrip (v : PyVal) (name : String) : PyVal :=
  parseValue (valuePartOf (formatLine (dataEncode v) name ""))

/-- A line that `read` either skips (no `=:` token) or whose leading name
token is not declared on `d`. -/
def lineSkippedOrUnknown (d : ClawData) (line : String) : Prop :=
  (∃ w, splitEq line.data = [w]) ∨
  (∃ v t n rest, splitEq line.data = [v, t] ∧ wsTokens t = n :: rest ∧
    hasAttribute d ⟨n⟩ = false)

/-- `m` keeps the output handle open: whenever it starts from a record with
an open handle, the record at its end (normal or exceptional) still has
one. -/
def PreservesOpen {α : Type} (m : M α) : Prop :=
  ∀ d : ClawData, d.outFile.isSome = true → ((runState m d).outFile).isSome = true

/-- A default 2-d `ClawInputData` with `output_style = 2` (the
`output_times` list is the empty default). -/
def c5stateEmpty : ClawData := setVal clawInputDefault2 "output_style" (.int 2)

/-- ... and with `output_times = [1.0, 2.0, 3.0]`. -/
def c5stateTimes : ClawData :=
  setVal c5stateEmpty "output_times" (.list [.float "1.0", .float "2.0", .float "3.0"])

/-- A default 2-d `ClawInputData` with `output_style` set to `s`. -/
def c5stateStyle (s : Int) : ClawData :=
  setVal clawInputDefault2 "output_style" (.int s)

/-- The record state after the opening section of `ClawInputData.write` on
`c5stateStyle s`. -/
def c5prefState (s : Int) : ClawData :=
  runState (clawPrefix "claw.data" "setrun.py") (c5stateStyle s)

/-- The count line `3 =: num_output_times` written for three output times. -/
def c5countLine : String := formatLine "3" "num_output_times" ""

/-- The times line `1.0 2.0 3.0 =: output_times`. -/
def c5timesLine : String := formatLine "1.0 2.0 3.0" "output_times" ""

/-- Everything `ClawInputData.write` emits on `c5stateTimes` before the
count line. -/
def c5preChunks : List String :=
  bannerChunks "setrun.py" ++
    [ formatLine "2" "num_dim" "", formatLine "0.0 0.0" "lower" "",
      formatLine "1.0 1.0" "upper" "", formatLine "100 100" "num_cells" "", "\n",
      formatLine "1" "num_eqn" "", formatLine "1" "num_waves" "",
      formatLine "0" "num_aux" "", "\n", formatLine "0.0" "t0" "", "\n",
      formatLine "2" "output_style" "" ]

/-- Everything `ClawInputData.write` emits on `c5stateTimes` after the
times line, up to the point where the undeclared `checkpt_style`
aborts the write. -/
def c5postChunks : List String :=
  [ "\n", formatLine "1" "output_format" "", formatLine "1" "iout_q" "", "\n",
    formatLine "1e-05" "dt_initial" "", formatLine "1e+99" "dt_max" "",
    formatLine "1.0" "cfl_max" "", formatLine "0.9" "cfl_desired" "",
    formatLine "50000" "steps_max" "", "\n", formatLine "1" "dt_variable" "",
    formatLine "2" "order" "", formatLine "2" "transverse_waves" "",
    formatLine "0" "dimensional_split" "", formatLine "0" "verbosity" "",
    formatLine "0" "source_split" "", formatLine "0" "capa_index" "",
    formatLine "F" "use_fwaves" "", "\n", formatLine "4" "limiter" "", "\n",
    formatLine "2" "num_ghost" "", formatLine "0 0" "bc_lower" "",
    formatLine "0 0" "bc_upper" "", "\n", formatLine "F" "restart" "",
    formatLine (⟨[squote, squote]⟩ : String) "restart_file" "" ]

/-- The single field line written for the singleton list `[5]`. -/
def c4line : String := formatLine (dataEncode (.list [.int 5])) "vals" ""

/-- An AMR record (defaults: `amr_levels_max = 1`) whose
`refinement_ratios_x` list is empty. -/
def c7state : ClawData := setVal amrclawDefault2 "refinement_ratios_x" (.list [])

/-- A gauge entry with number 3. -/
def gaugeEntry3 : PyVal :=
  .list [.int 3, .float "0.1", .float "0.2", .float "0.0", .float "1.0"]

/-- A second gauge entry that shares number 3. -/
def gaugeEntry3b : PyVal :=
  .list [.int 3, .float "0.3", .float "0.4", .float "0.0", .float "1.0"]

/-- A gauge entry with number 4. -/
def gaugeEntry4 : PyVal :=
  .list [.int 4, .float "0.3", .float "0.4", .float "0.0", .float "1.0"]

/-- A `GaugeData` record holding two gauges that share number 3. -/
def c6stateDup : ClawData :=
  setVal gaugeDefault "gauges" (.list [gaugeEntry3, gaugeEntry3b])

/-- A `GaugeData` record holding two gauges with distinct numbers 3, 4. -/
def c6stateOk : ClawData :=
  setVal gaugeDefault "gauges" (.list [gaugeEntry3, gaugeEntry4])

/-- The default AMR record with an (artificially) open output handle, for
exercising the refinement-ratio block in isolation. -/
def c7openState : ClawData := { amrclawDefault2 with outFile := some [] }

/-- The default AMR record with `refinement_ratios_x` emptied and the
output handle open. -/
def c7emptyRatioState : ClawData := { c7state with outFile := some [] }

/-- A record whose output handle is (artificially) already open. -/
def c9stateOpen : ClawData := { emptyClawData with outFile := some ["previous"] }

/-- A record with one attribute `x = 5` and an open output handle. -/
def c10state : ClawData :=
  { emptyClawData with values := [("x", PyVal.int 5)], outFile := some [] }

/-! ## Basic lemmas about the writer monad and the record operations -/

theorem bind_apply {α β : Type} (x : M α) (f : α → M β) (d : ClawData) :
    (x >>= f) d =
      match x d with
      | .ok a s => f a s
      | .error e s => .error e s := by
  show EStateM.bind x f d = _
  cases hx : x d <;> simp [EStateM.bind, hx]

theorem estatem_bind_apply {α β : Type} (x : M α) (f : α → M β) (d : ClawData) :
    EStateM.bind x f d =
      match x d with
      | .ok a s => f a s
      | .error e s => .error e s := bind_apply x f d

theorem get_apply (d : ClawData) : (get : M ClawData) d = .ok d d := rfl

theorem pure_apply {α : Type} (a : α) (d : ClawData) : (pure a : M α) d = .ok a d := rfl

theorem throw_apply {α : Type} (e : PyErr) (d : ClawData) :
    (throw e : M α) d = .error e d := rfl

theorem modify_apply (f : ClawData → ClawData) (d : ClawData) :
    (modify f : M Unit) d = .ok () (f d) := rfl

theorem set_apply (s d : ClawData) : (set s : M Unit) d = .ok () s := rfl

theorem getattrM_apply {d : ClawData} {n : String} {v : PyVal} (h : getVal d n = some v) :
    getattrM n d = .ok v d := by
  simp only [getattrM]
  rw [bind_apply]
  simp [get_apply, h, pure_apply]

theorem getattrM_apply_none {d : ClawData} {n : String} (h : getVal d n = Option.none) :
    getattrM n d = .error (.attributeError n) d := by
  simp only [getattrM]
  rw [bind_apply]
  simp [get_apply, h, throw_apply]

theorem fileWriteM_apply {d : ClawData} {chs : List String} (s : String)
    (h : d.outFile = some chs) :
    fileWriteM s d = .ok () { d with outFile := some (chs ++ [s]) } := by
  simp only [fileWriteM]
  rw [bind_apply]
  simp [get_apply, h, modify_apply]

theorem getVal_outFile (d : ClawData) (o : Option (List String)) (n : String) :
    getVal { d with outFile := o } n = getVal d n := rfl

theorem find_map_set (l : List (String × PyVal)) (n : String) (v : PyVal) :
    (l.find? (fun p => p.1 == n)).isSome = true →
      ((l.map (fun p => if p.1 == n then (p.1, v) else p)).find?
          (fun p => p.1 == n)).map (·.2) = some v := by
  intro h
  induction l with
  | nil => simp at h
  | cons a t ih =>
    cases ha : (a.1 == n) with
    | true => simp [List.find?, ha]
    | false =>
      rw [List.find?_cons_of_neg _ (by simp [ha])] at h
      rw [List.map_cons]
      have hif : (if (a.1 == n) = true then (a.1, v) else a) = a := by simp [ha]
      rw [hif, List.find?_cons_of_neg _ (by simp [ha])]
      exact ih h

theorem find_append_new (l : List (String × PyVal)) (n : String) (v : PyVal) :
    (l.find? (fun p => p.1 == n)).isSome = false →
      ((l ++ [(n, v)]).find? (fun p => p.1 == n)).map (·.2) = some v := by
  intro h
  induction l with
  | nil => simp [List.find?]
  | cons a t ih =>
    by_cases ha : (a.1 == n) = true
    · simp [List.find?, ha] at h
    · simp only [Bool.not_eq_true] at ha
      simp only [List.find?, ha, List.cons_append] at h ⊢
      exact ih h

theorem getVal_setVal_self (d : ClawData) (n : String) (v : PyVal) :
    getVal (setVal d n v) n = some v := by
  unfold getVal setVal
  by_cases h : (d.values.find? (fun p => p.1 == n)).isSome = true
  · simp only [h, if_pos]
    exact find_map_set d.values n v h
  · simp only [Bool.not_eq_true] at h
    simp only [h, Bool.false_eq_true, if_neg, not_false_iff]
    exact find_append_new d.values n v h

theorem outFile_setVal (d : ClawData) (n : String) (v : PyVal) :
    (setVal d n v).outFile = d.outFile := by
  unfold setVal
  split <;> rfl

theorem attributes_setVal (d : ClawData) (n : String) (v : PyVal) :
    (setVal d n v).attributes = d.attributes := by
  unfold setVal
  split <;> rfl

theorem hasAttribute_addAttribute_self (d : ClawData) (n : String) (w : PyVal) :
    hasAttribute (addAttribute d n w) n = true := by
  unfold hasAttribute addAttribute
  rw [attributes_setVal]
  cases h : d.attributes.contains n with
  | true => simpa using h
  | false => simp [h]

/-! ## Claim C9 — re-opening an already-open record -/

/-- C9 counterexample: on a record whose handle is already open,
`open_data_file` does not fail fast; it succeeds and silently replaces
the handle with a fresh one. -/
theorem c9_counterexample :
    c9stateOpen.outFile.isSome = true ∧
    runError (openDataFileM "claw.data" "setrun.py") c9stateOpen = Option.none ∧
    (runState (openDataFileM "claw.data" "setrun.py") c9stateOpen).outFile =
      some (bannerChunks "setrun.py") := ⟨rfl, rfl, rfl⟩

/-- C9 (amended): `open_data_file` never raises; on every record, already
open or not, it rebinds the handle to a fresh one holding exactly the
banner, without closing a previously open handle. -/
theorem c9_amended (d : ClawData) (name src : String) :
    (openDataFileM name src).run d = .ok () { d with outFile := some (bannerChunks src) } := rfl

/-! ## Claim C10 — an explicit `None` value argument to `data_write` -/

/-- C10: with a declared name `n` holding value `v`, calling `data_write`
with an explicit `None` value argument behaves exactly like the
name-only call: the `None` cannot be passed through (it is
indistinguishable from an absent argument) and the stored value is
fetched and written. -/
theorem c10_value_none_fetches (d : ClawData) (n : String) (v : PyVal)
    (h : getVal d n = some v) :
    (dataWriteM (some n) PyVal.none Option.none "").run d =
      (dataWriteM (some n) v Option.none "").run d ∧
    (∀ chs, d.outFile = some chs →
      (dataWriteM (some n) PyVal.none Option.none "").run d =
        .ok () { d with outFile := some (chs ++ [formatLine (dataEncode v) n ""]) }) := by
  constructor
  · cases hof : d.outFile with
    | none =>
      simp [dataWriteM, EStateM.run, bind_apply, get_apply, hof]
    | some chs =>
      cases v <;>
        simp [dataWriteM, EStateM.run, bind_apply, get_apply, hof, getattrM_apply h,
          pure_apply, estatem_bind_apply]
  · intro chs hof
    cases v <;>
      simp [dataWriteM, EStateM.run, bind_apply, get_apply, hof, getattrM_apply h,
        pure_apply, estatem_bind_apply, fileWriteM, modify_apply]

/-- C10 witness: instantiation at a record holding `x = 5` with an open
file. -/
theorem c10_witness :
    (dataWriteM (some "x") PyVal.none Option.none "").run c10state =
      (dataWriteM (some "x") (.int 5) Option.none "").run c10state :=
  (c10_value_none_fetches c10state "x" (.int 5) rfl).1

/-! ## Claim C2 — assignment to undeclared names -/

/-- C2 counterexample: assigning to the undeclared empty name — which is
not declared and does not start with `_` — fails with `IndexError`
(from the `name[0]` subscript), not with the attribute error the claim
requires. -/
theorem c2_counterexample :
    hasAttribute emptyClawData "" = false ∧
    "".data.head? ≠ some '_' ∧
    clawSetattr emptyClawData "" (.int 0) = .error PyErr.indexError := by
  refine ⟨rfl, by decide, rfl⟩

/-- C2 (amended): for every NON-EMPTY undeclared name not starting with
`_`, assignment fails with the `Unrecognized attribute` error (and the
record is unchanged, no modified record being produced); after declaring
the name, the same assignment succeeds and a subsequent get returns the
assigned value.  The empty name instead raises `IndexError`. -/
theorem c2_setattr_guard (d : ClawData) (name : String) (v w : PyVal)
    (c : Char) (cs : List Char)
    (hdata : name.data = c :: cs) (hc : c ≠ '_')
    (hdecl : hasAttribute d name = false) :
    clawSetattr d name v = .error (.attributeError ("Unrecognized attribute: " ++ name)) ∧
    clawSetattr (addAttribute d name w) name v =
      .ok (setVal (addAttribute d name w) name v) ∧
    getVal (setVal (addAttribute d name w) name v) name = some v := by
  refine ⟨?_, ?_, getVal_setVal_self _ _ _⟩
  · have hmem : name ∉ d.attributes := by
      simp only [hasAttribute] at hdecl
      simpa using hdecl
    simp [clawSetattr, hmem, hdata, hc]
  · have hmem : name ∈ (addAttribute d name w).attributes := by
      have hh := hasAttribute_addAttribute_self d name w
      simp only [hasAttribute] at hh
      simpa using hh
    simp [clawSetattr, hmem]

/-- C2 witness: the name `zeta` on an empty record. -/
theorem c2_witness :
    clawSetattr emptyClawData "zeta" (.int 1) =
      .error (.attributeError "Unrecognized attribute: zeta") ∧
    clawSetattr (addAttribute emptyClawData "zeta" (.int 0)) "zeta" (.int 1) =
      .ok (setVal (addAttribute emptyClawData "zeta" (.int 0)) "zeta" (.int 1)) ∧
    getVal (setVal (addAttribute emptyClawData "zeta" (.int 0)) "zeta" (.int 1)) "zeta" =
      some (.int 1) :=
  c2_setattr_guard emptyClawData "zeta" (.int 1) (.int 0) 'z' ['e', 't', 'a']
    rfl (by decide) rfl

/-! ## Claim C8 — `read` on unknown and known names -/

/-- C8: `read` with `force=false` leaves the record unchanged on files all
of whose field lines carry undeclared names (and raises nothing for
them); with `force=true` an undeclared name is declared with the decoded
value; a declared name is assigned the decoded value with no type check
(the result is exactly `setVal` of the decoded value, whatever the
previous value's type was). -/
theorem c8_read_policy :
    (∀ (d : ClawData) (lines : List String),
      (∀ l ∈ lines, lineSkippedOrUnknown d l) → clawRead d lines false = .ok d) ∧
    (∀ (d : ClawData) (line : String) (v t n : List Char) (rest : List (List Char)),
      splitEq line.data = [v, t] → wsTokens t = n :: rest → hasAttribute d ⟨n⟩ = false →
      readLine true d line = .ok (addAttribute d ⟨n⟩ (parseValue ⟨v⟩))) ∧
    (∀ (frc : Bool) (d : ClawData) (line : String) (v t n : List Char)
        (rest : List (List Char)),
      splitEq line.data = [v, t] → wsTokens t = n :: rest → hasAttribute d ⟨n⟩ = true →
      readLine frc d line = .ok (setVal d ⟨n⟩ (parseValue ⟨v⟩))) := by
  refine ⟨?_, ?_, ?_⟩
  · intro d lines h
    induction lines with
    | nil => rfl
    | cons l ls ih =>
      have hl : readLine false d l = .ok d := by
        rcases h l (List.mem_cons_self l ls) with ⟨w, hw⟩ | ⟨v, t, n, rest, h1, h2, h3⟩
        · simp [readLine, hw]
        · simp [readLine, h1, h2, h3]
      simp only [clawRead, List.foldlM] at ih ⊢
      rw [hl]
      exact ih (fun l hm => h l (List.mem_cons_of_mem _ hm))
  · intro d line v t n rest h1 h2 h3
    simp [readLine, h1, h2, h3]
  · intro frc d line v t n rest h1 h2 h3
    have hmem : (⟨n⟩ : String) ∈ d.attributes := by
      simp only [hasAttribute] at h3
      simpa using h3
    simp [readLine, h1, h2, h3, clawSetattr, hmem]

/-- C8 witness: a comment line and an unknown field line on an empty
record, with `force=false`. -/
theorem c8_witness :
    clawRead emptyClawData ["# comment", "5 =: unknown"] false = .ok emptyClawData := by
  refine c8_read_policy.1 emptyClawData _ ?_
  intro l hl
  rcases List.mem_cons.mp hl with rfl | hl
  · exact Or.inl ⟨"# comment".data, rfl⟩
  · rcases List.mem_cons.mp hl with rfl | hl
    · exact Or.inr ⟨"5 ".data, " unknown".data, "unknown".data, [], rfl, rfl, rfl⟩
    · cases hl

/-! ## Claim C5 — the `output_style` selector of `ClawInputData.write` -/

/-- C5: on the default 2-d run-control record, `output_style = 2` with an
empty `output_times` raises the validation error; with times
`[1.0, 2.0, 3.0]` the emitted output carries the count line (`3`)
immediately followed by the times line (`1.0 2.0 3.0`); and every
integer `output_style` outside `{1, 2, 3}` raises an error naming the
offending value. -/
theorem c5_output_style :
    runError (clawInputWrite "claw.data" "setrun.py") c5stateEmpty =
      some (.attributeError "*** output_style==2 requires nonempty list of output times") ∧
    (runState (clawInputWrite "claw.data" "setrun.py") c5stateTimes).outFile =
      some (c5preChunks ++ [c5countLine, c5timesLine] ++ c5postChunks) ∧
    (∀ s : Int, s ≠ 1 → s ≠ 2 → s ≠ 3 →
      runError (clawInputWrite "claw.data" "setrun.py") (c5stateStyle s) =
        some (.attributeError ("*** Unrecognized output_style: " ++ intRepr s))) := by
  refine ⟨rfl, rfl, ?_⟩
  intro s h1 h2 h3
  have hb1 : (s == 1) = false := beq_eq_false_iff_ne.mpr h1
  have hb2 : (s == 2) = false := beq_eq_false_iff_ne.mpr h2
  have hb3 : (s == 3) = false := beq_eq_false_iff_ne.mpr h3
  have hpre : clawPrefix "claw.data" "setrun.py" (c5stateStyle s) = .ok () (c5prefState s) := rfl
  have hget : getVal (c5prefState s) "output_style" = some (.int s) := rfl
  have hcore : clawStyleCore (.int s) (c5prefState s) =
      .error (.attributeError ("*** Unrecognized output_style: " ++ intRepr s))
        (c5prefState s) := by
    simp only [clawStyleCore, pyEqI, hb1, hb2, hb3, Bool.false_eq_true, if_false]
    simp [pyStr, pyRepr, throw_apply]
  have hsty : clawStyleSection (c5prefState s) =
      .error (.attributeError ("*** Unrecognized output_style: " ++ intRepr s))
        (c5prefState s) := by
    simp only [clawStyleSection]
    rw [bind_apply, getattrM_apply hget]
    exact hcore
  have hwhole : clawInputWrite "claw.data" "setrun.py" (c5stateStyle s) =
      .error (.attributeError ("*** Unrecognized output_style: " ++ intRepr s))
        (c5prefState s) := by
    simp only [clawInputWrite]
    rw [bind_apply, hpre]
    show (clawStyleSection >>= fun _ => clawPostStyle) (c5prefState s) = _
    rw [bind_apply, hsty]
  simp [runError, EStateM.run, hwhole]

/-- C5 witness: `output_style = 7`. -/
theorem c5_witness :
    runError (clawInputWrite "claw.data" "setrun.py") (c5stateStyle 7) =
      some (.attributeError ("*** Unrecognized output_style: " ++ intRepr 7)) :=
  c5_output_style.2.2 7 (by decide) (by decide) (by decide)

/-! ## Claim C1 — the output resource is not released -/

theorem runState_bind {α β : Type} (x : M α) (f : α → M β) (d : ClawData) :
    runState (x >>= f) d =
      match x d with
      | .ok a s => runState (f a) s
      | .error _ s => s := by
  simp only [runState, EStateM.run]
  rw [bind_apply]
  cases x d <;> rfl

theorem runState_apply_ok {α : Type} {x : M α} {d s : ClawData} {a : α}
    (h : x d = .ok a s) : runState x d = s := by
  simp [runState, EStateM.run, h]

theorem runState_apply_error {α : Type} {x : M α} {d s : ClawData} {e : PyErr}
    (h : x d = .error e s) : runState x d = s := by
  simp [runState, EStateM.run, h]

theorem presOpen_pure {α : Type} (a : α) : PreservesOpen (pure a : M α) := by
  intro d hd
  simpa [runState, EStateM.run, pure_apply] using hd

theorem presOpen_throw {α : Type} (e : PyErr) : PreservesOpen (throw e : M α) := by
  intro d hd
  simpa [runState, EStateM.run, throw_apply] using hd

theorem presOpen_bind {α β : Type} {x : M α} {f : α → M β}
    (hx : PreservesOpen x) (hf : ∀ a, PreservesOpen (f a)) :
    PreservesOpen (x >>= f) := by
  intro d hd
  have hxd := hx d hd
  rw [runState_bind]
  cases hx' : x d with
  | ok a s =>
    refine hf a s ?_
    rwa [runState_apply_ok hx'] at hxd
  | error e s =>
    rwa [runState_apply_error hx'] at hxd

theorem presOpen_ite {α : Type} {p : Prop} [Decidable p] {x y : M α}
    (hx : PreservesOpen x) (hy : PreservesOpen y) :
    PreservesOpen (if p then x else y) := by
  split <;> assumption

theorem presOpen_getattrM (n : String) : PreservesOpen (getattrM n) := by
  simp only [getattrM]
  refine presOpen_bind ?_ ?_
  · intro d hd
    simpa [runState, EStateM.run, get_apply] using hd
  · intro a
    cases getVal a n with
    | some v => exact presOpen_pure v
    | none => exact presOpen_throw _

theorem clawSetattr_outFile {d d' : ClawData} {n : String} {v : PyVal}
    (h : clawSetattr d n v = .ok d') : d'.outFile = d.outFile := by
  unfold clawSetattr at h
  split at h
  · cases h
    exact outFile_setVal d n v
  · split at h
    · cases h
    · split at h
      · cases h
      · cases h
        exact outFile_setVal d n v

theorem presOpen_setattrM (n : String) (v : PyVal) : PreservesOpen (setattrM n v) := by
  intro d hd
  simp only [setattrM, runState, EStateM.run]
  rw [bind_apply, get_apply]
  cases hcs : clawSetattr d n v with
  | ok d' => simp [hcs, set_apply, clawSetattr_outFile hcs, hd]
  | error e => simp [hcs, throw_apply, hd]

theorem presOpen_setValM (n : String) (v : PyVal) : PreservesOpen (setValM n v) := by
  intro d hd
  simp only [setValM, runState, EStateM.run, modify_apply]
  rw [outFile_setVal]
  exact hd

theorem presOpen_liftE {α : Type} (e : Except PyErr α) : PreservesOpen (liftE e) := by
  cases e with
  | ok a => exact presOpen_pure a
  | error er => exact presOpen_throw er

theorem presOpen_fileWriteM (s : String) : PreservesOpen (fileWriteM s) := by
  intro d hd
  simp only [fileWriteM, runState, EStateM.run]
  rw [bind_apply, get_apply]
  cases hof : d.outFile with
  | some chs => simp [hof, modify_apply]
  | none => simp [hof] at hd

theorem presOpen_dataWriteM (name : Option String) (value : PyVal)
    (altName : Option String) (descr : String) :
    PreservesOpen (dataWriteM name value altName descr) := by
  simp only [dataWriteM]
  refine presOpen_bind ?_ ?_
  · intro d hd
    simpa [runState, EStateM.run, get_apply] using hd
  · intro a
    repeat'
      first
        | exact presOpen_throw _
        | exact presOpen_pure _
        | exact presOpen_fileWriteM _
        | exact presOpen_getattrM _
        | (refine presOpen_bind ?_ fun y => ?_)
        | split

theorem presOpen_dw (n : String) : PreservesOpen (dw n) := presOpen_dataWriteM _ _ _ _

theorem presOpen_dwBlank : PreservesOpen dwBlank := presOpen_dataWriteM _ _ _ _

theorem presOpen_clawStyleCore (s : PyVal) : PreservesOpen (clawStyleCore s) := by
  simp only [clawStyleCore]
  repeat'
    first
      | exact presOpen_throw _
      | exact presOpen_pure _
      | exact presOpen_dwBlank
      | exact presOpen_dw _
      | exact presOpen_getattrM _
      | exact presOpen_setattrM _ _
      | exact presOpen_liftE _
      | (refine presOpen_bind ?_ fun y => ?_)
      | split

theorem presOpen_clawStyleSection : PreservesOpen clawStyleSection := by
  simp only [clawStyleSection]
  exact presOpen_bind (presOpen_getattrM _) fun s => presOpen_clawStyleCore s

theorem presOpen_limiterLoop (fuel i : Nat) : PreservesOpen (limiterLoop fuel i) := by
  induction fuel generalizing i with
  | zero => exact presOpen_pure _
  | succ fuel ih =>
    simp only [limiterLoop]
    repeat'
      first
        | exact presOpen_throw _
        | exact presOpen_pure _
        | exact presOpen_getattrM _
        | exact presOpen_setValM _ _
        | exact presOpen_liftE _
        | exact ih (i + 1)
        | (refine presOpen_bind ?_ fun y => ?_)
        | split

theorem presOpen_bcLoop (name : String) (fuel i : Nat) :
    PreservesOpen (bcLoop name fuel i) := by
  induction fuel generalizing i with
  | zero => exact presOpen_pure _
  | succ fuel ih =>
    simp only [bcLoop]
    repeat'
      first
        | exact presOpen_throw _
        | exact presOpen_pure _
        | exact presOpen_getattrM _
        | exact presOpen_setValM _ _
        | exact presOpen_liftE _
        | exact ih (i + 1)
        | (refine presOpen_bind ?_ fun y => ?_)
        | split

theorem presOpen_clawOutputFormatBlock : PreservesOpen clawOutputFormatBlock := by
  simp only [clawOutputFormatBlock]
  repeat'
    first
      | exact presOpen_throw _
      | exact presOpen_setattrM _ _
      | exact presOpen_getattrM _
      | (refine presOpen_bind ?_ fun y => ?_)
      | split

theorem presOpen_clawIoutQBlock : PreservesOpen clawIoutQBlock := by
  simp only [clawIoutQBlock]
  repeat'
    first
      | exact presOpen_liftE _
      | exact presOpen_getattrM _
      | exact presOpen_dataWriteM _ _ _ _
      | (refine presOpen_bind ?_ fun y => ?_)
      | split

theorem presOpen_clawAuxBlock : PreservesOpen clawAuxBlock := by
  simp only [clawAuxBlock]
  refine presOpen_bind (presOpen_getattrM _) fun na => ?_
  refine presOpen_bind (presOpen_liftE _) fun naPos => ?_
  split
  · refine presOpen_bind (presOpen_getattrM _) fun ac => ?_
    split
    · exact presOpen_bind (presOpen_liftE _) fun y =>
        presOpen_bind (presOpen_dataWriteM _ _ _ _) fun _ => presOpen_dw _
    · split
      · exact presOpen_bind (presOpen_liftE _) fun y =>
          presOpen_bind (presOpen_dataWriteM _ _ _ _) fun _ => presOpen_dw _
      · exact presOpen_bind (presOpen_liftE _) fun y =>
          presOpen_bind (presOpen_dataWriteM _ _ _ _) fun _ => presOpen_dw _
  · exact presOpen_pure _

theorem presOpen_normTransverseBlock : PreservesOpen normTransverseBlock := by
  simp only [normTransverseBlock]
  refine presOpen_bind (presOpen_getattrM _) fun tw => ?_
  split
  · exact presOpen_setattrM _ _
  · split
    · exact presOpen_setattrM _ _
    · split
      · exact presOpen_setattrM _ _
      · exact presOpen_throw _

theorem presOpen_normDimSplitBlock : PreservesOpen normDimSplitBlock := by
  simp only [normDimSplitBlock]
  refine presOpen_bind (presOpen_getattrM _) fun ds => ?_
  split
  · exact presOpen_setattrM _ _
  · split
    · exact presOpen_setattrM _ _
    · split
      · exact presOpen_setattrM _ _
      · exact presOpen_throw _

theorem presOpen_clawSplitBlock : PreservesOpen clawSplitBlock := by
  simp only [clawSplitBlock]
  refine presOpen_bind (presOpen_getattrM _) fun nd => ?_
  split
  · exact presOpen_pure _
  · refine presOpen_bind presOpen_normTransverseBlock fun _ => ?_
    refine presOpen_bind (presOpen_getattrM _) fun tw' => ?_
    refine presOpen_bind (presOpen_dataWriteM _ _ _ _) fun _ => ?_
    exact presOpen_bind presOpen_normDimSplitBlock fun _ => presOpen_dw _

theorem presOpen_clawSourceSplitBlock : PreservesOpen clawSourceSplitBlock := by
  simp only [clawSourceSplitBlock]
  repeat'
    first
      | exact presOpen_throw _
      | exact presOpen_setattrM _ _
      | exact presOpen_getattrM _
      | (refine presOpen_bind ?_ fun y => ?_)
      | split

theorem presOpen_clawAuxTypeBlock : PreservesOpen clawAuxTypeBlock := by
  simp only [clawAuxTypeBlock]
  repeat'
    first
      | exact presOpen_pure _
      | exact presOpen_liftE _
      | exact presOpen_getattrM _
      | exact presOpen_dataWriteM _ _ _ _
      | (refine presOpen_bind ?_ fun y => ?_)
      | split

theorem presOpen_clawLimiterBlock : PreservesOpen clawLimiterBlock := by
  simp only [clawLimiterBlock]
  repeat'
    first
      | exact presOpen_liftE _
      | exact presOpen_getattrM _
      | exact presOpen_limiterLoop _ _
      | (refine presOpen_bind ?_ fun y => ?_)

theorem presOpen_clawBcBlock (name : String) : PreservesOpen (clawBcBlock name) := by
  simp only [clawBcBlock]
  repeat'
    first
      | exact presOpen_liftE _
      | exact presOpen_getattrM _
      | exact presOpen_bcLoop _ _ _
      | (refine presOpen_bind ?_ fun y => ?_)

theorem presOpen_clawCheckptBlock : PreservesOpen clawCheckptBlock := by
  simp only [clawCheckptBlock]
  refine presOpen_bind (presOpen_getattrM _) fun cs => ?_
  split
  · exact presOpen_bind (presOpen_getattrM _) fun ct =>
      presOpen_bind (presOpen_liftE _) fun nct =>
        presOpen_bind (presOpen_dataWriteM _ _ _ _) fun _ => presOpen_dw _
  · split
    · exact presOpen_dw _
    · split
      · exact presOpen_throw _
      · exact presOpen_pure _

theorem presOpen_clawPostStyle : PreservesOpen clawPostStyle := by
  simp only [clawPostStyle]
  refine presOpen_bind presOpen_dwBlank fun _ => ?_
  refine presOpen_bind presOpen_clawOutputFormatBlock fun _ => ?_
  refine presOpen_bind (presOpen_dw _) fun _ => ?_
  refine presOpen_bind presOpen_clawIoutQBlock fun _ => ?_
  refine presOpen_bind presOpen_clawAuxBlock fun _ => ?_
  refine presOpen_bind presOpen_dwBlank fun _ => ?_
  refine presOpen_bind (presOpen_dw _) fun _ => ?_
  refine presOpen_bind (presOpen_dw _) fun _ => ?_
  refine presOpen_bind (presOpen_dw _) fun _ => ?_
  refine presOpen_bind (presOpen_dw _) fun _ => ?_
  refine presOpen_bind (presOpen_dw _) fun _ => ?_
  refine presOpen_bind presOpen_dwBlank fun _ => ?_
  refine presOpen_bind (presOpen_dw _) fun _ => ?_
  refine presOpen_bind (presOpen_dw _) fun _ => ?_
  refine presOpen_bind presOpen_clawSplitBlock fun _ => ?_
  refine presOpen_bind (presOpen_dw _) fun _ => ?_
  refine presOpen_bind presOpen_clawSourceSplitBlock fun _ => ?_
  refine presOpen_bind (presOpen_dw _) fun _ => ?_
  refine presOpen_bind (presOpen_dw _) fun _ => ?_
  refine presOpen_bind presOpen_clawAuxTypeBlock fun _ => ?_
  refine presOpen_bind (presOpen_dw _) fun _ => ?_
  refine presOpen_bind presOpen_dwBlank fun _ => ?_
  refine presOpen_bind presOpen_clawLimiterBlock fun _ => ?_
  refine presOpen_bind (presOpen_dw _) fun _ => ?_
  refine presOpen_bind presOpen_dwBlank fun _ => ?_
  refine presOpen_bind (presOpen_dw _) fun _ => ?_
  refine presOpen_bind (presOpen_clawBcBlock _) fun _ => ?_
  refine presOpen_bind (presOpen_dw _) fun _ => ?_
  refine presOpen_bind (presOpen_clawBcBlock _) fun _ => ?_
  refine presOpen_bind (presOpen_dw _) fun _ => ?_
  refine presOpen_bind presOpen_dwBlank fun _ => ?_
  refine presOpen_bind (presOpen_dw _) fun _ => ?_
  refine presOpen_bind (presOpen_dw _) fun _ => ?_
  refine presOpen_bind (presOpen_dw _) fun _ => ?_
  refine presOpen_bind presOpen_clawCheckptBlock fun _ => ?_
  exact presOpen_dwBlank

theorem presOpen_clawHeaderFields : PreservesOpen clawHeaderFields := by
  simp only [clawHeaderFields]
  repeat'
    first
      | exact presOpen_dwBlank
      | exact presOpen_dw _
      | (refine presOpen_bind ?_ fun y => ?_)

/-- C1 counterexample: the claim's own scenario — a validation failure
raised mid-write (`output_style = 2` with empty `output_times`) — leaves
the record still holding an open output resource when the error
propagates. -/
theorem c1_counterexample :
    runError (clawInputWrite "claw.data" "setrun.py") c5stateEmpty =
      some (.attributeError "*** output_style==2 requires nonempty list of output times") ∧
    ((runState (clawInputWrite "claw.data" "setrun.py") c5stateEmpty).outFile).isSome =
      true := ⟨rfl, rfl⟩

/-- C1 (amended): `ClawInputData.write` never releases the output resource
on any exit path: on every starting record, after the write — whether it
completed or raised — the record still holds an open output handle
(`close_data_file` is never invoked by this writer). -/
theorem c1_amended (d : ClawData) (out src : String) :
    ((runState (clawInputWrite out src) d).outFile).isSome = true := by
  have hpre : ∀ d0 : ClawData,
      ((runState (clawPrefix out src) d0).outFile).isSome = true := by
    intro d0
    simp only [clawPrefix]
    rw [runState_bind]
    rw [show openDataFileM out src d0 =
      .ok () { d0 with outFile := some (bannerChunks src) } from rfl]
    exact presOpen_clawHeaderFields _ rfl
  simp only [clawInputWrite]
  rw [runState_bind]
  cases hx : clawPrefix out src d with
  | ok a s =>
    have hs : s.outFile.isSome = true := by
      have := hpre d
      rwa [runState_apply_ok hx] at this
    exact presOpen_bind presOpen_clawStyleSection (fun _ => presOpen_clawPostStyle) s hs
  | error e s =>
    have := hpre d
    rwa [runState_apply_error hx] at this

/-! ## Further run-level helper lemmas -/

theorem bind_apply_ok {α β : Type} {x : M α} {f : α → M β} {d s : ClawData} {a : α}
    (h : x d = .ok a s) : (x >>= f) d = f a s := by
  rw [bind_apply, h]

theorem bind_apply_error {α β : Type} {x : M α} {f : α → M β} {d s : ClawData} {e : PyErr}
    (h : x d = .error e s) : (x >>= f) d = .error e s := by
  rw [bind_apply, h]

theorem liftE_ok_apply {α : Type} (a : α) (d : ClawData) :
    liftE (Except.ok a) d = .ok a d := rfl

theorem liftE_error_apply {α : Type} (e : PyErr) (d : ClawData) :
    (liftE (Except.error e) : M α) d = .error e d := rfl

theorem dw_apply {d : ClawData} {n : String} {v : PyVal} {chs : List String}
    (h : getVal d n = some v) (hof : d.outFile = some chs) :
    dw n d = .ok () { d with outFile := some (chs ++ [formatLine (dataEncode v) n ""]) } := by
  simp only [dw, dataWriteM]
  rw [bind_apply_ok (get_apply d)]
  simp only [hof]
  rw [bind_apply_ok (getattrM_apply h)]
  exact fileWriteM_apply _ hof

theorem dataWriteM_intVal_apply {d : ClawData} {chs : List String} (n : String) (k : Int)
    (hof : d.outFile = some chs) :
    dataWriteM (some n) (.int k) Option.none "" d =
      .ok () { d with outFile := some (chs ++ [formatLine (intRepr k) n ""]) } := by
  simp only [dataWriteM]
  rw [bind_apply_ok (get_apply d)]
  simp only [hof]
  rw [bind_apply_ok (pure_apply (PyVal.int k) d)]
  exact fileWriteM_apply _ hof

theorem closeDataFileM_apply {d : ClawData} {chs : List String} (hof : d.outFile = some chs) :
    closeDataFileM d = .ok () { d with outFile := Option.none } := by
  simp only [closeDataFileM]
  rw [bind_apply_ok (get_apply d)]
  simp [hof, modify_apply]

/-! ## Claim C7 — the refinement-ratio length checks -/

theorem amrRatioCheck_apply {d : ClawData} {name : String} {r : List PyVal} {k : Int}
    (h : getVal d name = some (.list r)) :
    amrRatioCheck name k d =
      if (r.length : Int) < k then
        .error (.valueError ("*** Error in data parameter: require len(" ++ name ++
          ") >= " ++ intRepr k ++ " ")) d
      else .ok () d := by
  simp only [amrRatioCheck]
  rw [bind_apply_ok (getattrM_apply h)]
  rw [bind_apply_ok (show liftE (pyLenE (PyVal.list r)) d = .ok r.length d from rfl)]
  split <;> simp [throw_apply, pure_apply]

theorem amrRatioWrites_run {d : ClawData} {chs : List String} {k : Int}
    {rx ry rt : List PyVal}
    (hof : d.outFile = some chs)
    (hx : getVal d "refinement_ratios_x" = some (.list rx))
    (hy : getVal d "refinement_ratios_y" = some (.list ry))
    (hnd : getVal d "num_dim" = some (.int 2))
    (ht : getVal d "refinement_ratios_t" = some (.list rt)) :
    runError (amrRatioWrites k) d =
      if (rt.length : Int) < k then
        some (.valueError ("*** Error in data parameter: require len(" ++
          "refinement_ratios_t" ++ ") >= " ++ intRepr k ++ " "))
      else Option.none := by
  simp only [runError, EStateM.run, amrRatioWrites]
  rw [bind_apply_ok (dw_apply hx hof)]
  have hy2 : getVal { d with outFile := some (chs ++
      [formatLine (dataEncode (PyVal.list rx)) "refinement_ratios_x" ""]) }
      "refinement_ratios_y" = some (PyVal.list ry) := hy
  rw [bind_apply_ok (dw_apply hy2 rfl)]
  have hnd3 : getVal { { d with outFile := some (chs ++
      [formatLine (dataEncode (PyVal.list rx)) "refinement_ratios_x" ""]) } with
      outFile := some (chs ++
        [formatLine (dataEncode (PyVal.list rx)) "refinement_ratios_x" ""] ++
        [formatLine (dataEncode (PyVal.list ry)) "refinement_ratios_y" ""]) }
      "num_dim" = some (PyVal.int 2) := hnd
  rw [bind_apply_ok (getattrM_apply hnd3)]
  simp only [show pyEqI (PyVal.int 2) 3 = false from rfl, Bool.false_eq_true, if_false]
  rw [bind_apply]
  simp only [pure_apply]
  have ht3 : getVal { { d with outFile := some (chs ++
      [formatLine (dataEncode (PyVal.list rx)) "refinement_ratios_x" ""]) } with
      outFile := some (chs ++
        [formatLine (dataEncode (PyVal.list rx)) "refinement_ratios_x" ""] ++
        [formatLine (dataEncode (PyVal.list ry)) "refinement_ratios_y" ""]) }
      "refinement_ratios_t" = some (PyVal.list rt) := ht
  by_cases hct : ((rt.length : Int) < k)
  · have hcheckt := (amrRatioCheck_apply ht3).trans (if_pos hct)
    rw [bind_apply_error hcheckt, if_pos hct]
  · have hcheckt := (amrRatioCheck_apply ht3).trans (if_neg hct)
    rw [bind_apply_ok hcheckt]
    rw [dw_apply ht3 rfl, if_neg hct]

/-- C7 counterexample: with `amr_levels_max = 1` and an empty
`refinement_ratios_x`, the list has at least `amr_levels_max - 1 = 0`
entries, so by the claim the checks should pass; the code instead
demands `max(abs(amr_levels_max) - 1, 1) = 1` entries and raises a
ValueError. -/
theorem c7_counterexample :
    getVal c7emptyRatioState "amr_levels_max" = some (.int 1) ∧
    getVal c7emptyRatioState "refinement_ratios_x" = some (.list []) ∧
    ((1 : Int) - 1 ≤ (([] : List PyVal).length : Int)) ∧
    runError amrRatioBlock c7emptyRatioState =
      some (.valueError
        "*** Error in data parameter: require len(refinement_ratios_x) >= 1 ") :=
  ⟨rfl, rfl, by norm_num, rfl⟩

/-- C7 (amended): the refinement-ratio block of `AmrclawInputData.write`
succeeds if and only if each refinement-ratio list (`x`, `y`, `t` in two
dimensions) has at least `max(abs(amr_levels_max) - 1, 1)` entries - not
`amr_levels_max - 1` as claimed: at least one ratio entry is always
demanded, and the level count is taken by absolute value. -/
theorem c7_ratio_checks (d : ClawData) (chs : List String) (a : Int)
    (rx ry rt : List PyVal)
    (hof : d.outFile = some chs)
    (ha : getVal d "amr_levels_max" = some (.int a))
    (hx : getVal d "refinement_ratios_x" = some (.list rx))
    (hy : getVal d "refinement_ratios_y" = some (.list ry))
    (ht : getVal d "refinement_ratios_t" = some (.list rt))
    (hnd : getVal d "num_dim" = some (.int 2)) :
    runError amrRatioBlock d = Option.none ↔
      (max ((a.natAbs : Int) - 1) 1 ≤ rx.length ∧
       max ((a.natAbs : Int) - 1) 1 ≤ ry.length ∧
       max ((a.natAbs : Int) - 1) 1 ≤ rt.length) := by
  have hwr : dw "amr_levels_max" d = .ok () { d with outFile := some (chs ++
      [formatLine (dataEncode (PyVal.int a)) "amr_levels_max" ""]) } := dw_apply ha hof
  have ha1 : getVal { d with outFile := some (chs ++
      [formatLine (dataEncode (PyVal.int a)) "amr_levels_max" ""]) }
      "amr_levels_max" = some (PyVal.int a) := ha
  have hx1 : getVal { d with outFile := some (chs ++
      [formatLine (dataEncode (PyVal.int a)) "amr_levels_max" ""]) }
      "refinement_ratios_x" = some (PyVal.list rx) := hx
  have hy1 : getVal { d with outFile := some (chs ++
      [formatLine (dataEncode (PyVal.int a)) "amr_levels_max" ""]) }
      "refinement_ratios_y" = some (PyVal.list ry) := hy
  simp only [runError, EStateM.run, amrRatioBlock]
  rw [bind_apply_ok hwr]
  rw [bind_apply_ok (getattrM_apply ha1)]
  rw [bind_apply_ok (show liftE (pyIntE (PyVal.int a)) { d with outFile := some (chs ++
      [formatLine (dataEncode (PyVal.int a)) "amr_levels_max" ""]) } =
      .ok a { d with outFile := some (chs ++
        [formatLine (dataEncode (PyVal.int a)) "amr_levels_max" ""]) } from rfl)]
  by_cases hcx : ((rx.length : Int) < max ((a.natAbs : Int) - 1) 1)
  · have hcheck := (amrRatioCheck_apply hx1).trans (if_pos hcx)
    rw [bind_apply_error hcheck]
    constructor
    · intro h
      simp at h
    · intro h
      exact absurd h.1 (by omega)
  · have hcheck := (amrRatioCheck_apply hx1).trans (if_neg hcx)
    rw [bind_apply_ok hcheck]
    by_cases hcy : ((ry.length : Int) < max ((a.natAbs : Int) - 1) 1)
    · have hchecky := (amrRatioCheck_apply hy1).trans (if_pos hcy)
      rw [bind_apply_error hchecky]
      constructor
      · intro h
        simp at h
      · intro h
        exact absurd h.2.1 (by omega)
    · have hchecky := (amrRatioCheck_apply hy1).trans (if_neg hcy)
      rw [bind_apply_ok hchecky]
      have hofd1 : ({ d with outFile := some (chs ++
          [formatLine (dataEncode (PyVal.int a)) "amr_levels_max" ""]) } : ClawData).outFile =
          some (chs ++ [formatLine (dataEncode (PyVal.int a)) "amr_levels_max" ""]) := rfl
      have hnd1 : getVal { d with outFile := some (chs ++
          [formatLine (dataEncode (PyVal.int a)) "amr_levels_max" ""]) }
          "num_dim" = some (PyVal.int 2) := hnd
      have ht1 : getVal { d with outFile := some (chs ++
          [formatLine (dataEncode (PyVal.int a)) "amr_levels_max" ""]) }
          "refinement_ratios_t" = some (PyVal.list rt) := ht
      have hw := @amrRatioWrites_run
        { d with outFile := some (chs ++
          [formatLine (dataEncode (PyVal.int a)) "amr_levels_max" ""]) }
        (chs ++ [formatLine (dataEncode (PyVal.int a)) "amr_levels_max" ""])
        (max ((a.natAbs : Int) - 1) 1) rx ry rt hofd1 hx1 hy1 hnd1 ht1
      show runError (amrRatioWrites (max ((a.natAbs : Int) - 1) 1))
          { d with outFile := some (chs ++
            [formatLine (dataEncode (PyVal.int a)) "amr_levels_max" ""]) } =
          Option.none ↔ _
      rw [hw]
      by_cases hct : ((rt.length : Int) < max ((a.natAbs : Int) - 1) 1)
      · rw [if_pos hct]
        simp only [reduceCtorEq]
        constructor
        · intro h
          cases h
        · intro h
          exact absurd h.2.2 (by omega)
      · rw [if_neg hct]
        constructor
        · intro _
          exact ⟨by omega, by omega, by omega⟩
        · intro _
          rfl

/-- C7 witness: the default AMR record (`amr_levels_max = 1`, all ratio
lists `[1]`) with an open handle passes the checks. -/
theorem c7_witness :
    runError amrRatioBlock c7openState = Option.none ↔
      (max (((1 : Int).natAbs : Int) - 1) 1 ≤ ([PyVal.int 1] : List PyVal).length ∧
       max (((1 : Int).natAbs : Int) - 1) 1 ≤ ([PyVal.int 1] : List PyVal).length ∧
       max (((1 : Int).natAbs : Int) - 1) 1 ≤ ([PyVal.int 1] : List PyVal).length) :=
  c7_ratio_checks c7openState [] 1 [.int 1] [.int 1] [.int 1] rfl rfl rfl rfl rfl rfl

/-! ## Claim C6 — gauge-number uniqueness check -/

theorem gaugeCheck_dup {d : ClawData} {gs nums : List PyVal}
    (hg : getVal d "gauges" = some (.list gs))
    (hn : gaugeNumbersE gs = Except.ok nums)
    (hlen : 0 < gs.length)
    (hd : nums.length ≠ nums.eraseDups.length) :
    gaugeCheck d = .error (.exception "Non unique gauge numbers specified.") d := by
  simp only [gaugeCheck]
  rw [bind_apply_ok (getattrM_apply hg)]
  rw [bind_apply_ok (show liftE (pyLenE (PyVal.list gs)) d = .ok gs.length d from rfl)]
  rw [if_pos hlen]
  rw [bind_apply_ok (show liftE (gaugeListE (PyVal.list gs)) d = .ok gs d from rfl)]
  rw [hn]
  rw [bind_apply_ok (liftE_ok_apply nums d)]
  rw [if_pos hd]
  exact throw_apply _ d

theorem gaugeCheck_nodup {d : ClawData} {gs nums : List PyVal}
    (hg : getVal d "gauges" = some (.list gs))
    (hn : gaugeNumbersE gs = Except.ok nums)
    (hd : nums.length = nums.eraseDups.length) :
    gaugeCheck d = .ok () d := by
  simp only [gaugeCheck]
  rw [bind_apply_ok (getattrM_apply hg)]
  rw [bind_apply_ok (show liftE (pyLenE (PyVal.list gs)) d = .ok gs.length d from rfl)]
  by_cases hl : gs.length > 0
  · rw [if_pos hl]
    rw [bind_apply_ok (show liftE (gaugeListE (PyVal.list gs)) d = .ok gs d from rfl)]
    rw [hn]
    rw [bind_apply_ok (liftE_ok_apply nums d)]
    rw [if_neg (not_ne_iff.mpr hd)]
    exact pure_apply () d
  · rw [if_neg hl]
    exact pure_apply () d

theorem gaugeLinesLoop_ok : ∀ (gs : List PyVal) (d : ClawData) (chs : List String),
    d.outFile = some chs →
    (∀ g ∈ gs, ∃ s, gaugeLineE g = Except.ok s) →
    ∃ chs2, gaugeLinesLoop gs d = .ok () { d with outFile := some chs2 }
  | [], d, chs, hof, _ => by
    refine ⟨chs, ?_⟩
    show (pure () : M Unit) d = _
    rw [pure_apply, ← hof]
  | g :: gs, d, chs, hof, hl => by
    obtain ⟨s1, hs1⟩ := hl g (List.mem_cons_self g gs)
    obtain ⟨chs2, h2⟩ := gaugeLinesLoop_ok gs
      { d with outFile := some (chs ++ [s1]) } (chs ++ [s1]) rfl
      (fun g2 hg2 => hl g2 (List.mem_cons_of_mem g hg2))
    refine ⟨chs2, ?_⟩
    simp only [gaugeLinesLoop]
    rw [hs1]
    rw [bind_apply_ok (liftE_ok_apply s1 d)]
    rw [bind_apply_ok (fileWriteM_apply s1 hof)]
    exact h2

theorem gaugeWriteBody_ok {d : ClawData} {gs : List PyVal} (out src : String)
    (hg : getVal d "gauges" = some (.list gs))
    (hl : ∀ g ∈ gs, ∃ s, gaugeLineE g = Except.ok s) :
    gaugeWriteBody out src d = .ok () { d with outFile := Option.none } := by
  obtain ⟨chs2, hloop⟩ := gaugeLinesLoop_ok gs
    { d with outFile := some (bannerChunks src ++
      [formatLine (intRepr (gs.length : Int)) "ngauges" ""]) }
    (bannerChunks src ++ [formatLine (intRepr (gs.length : Int)) "ngauges" ""]) rfl hl
  have hg1 : getVal { d with outFile := some (bannerChunks src) } "gauges" =
      some (PyVal.list gs) := hg
  have hdw := @dataWriteM_intVal_apply { d with outFile := some (bannerChunks src) }
    (bannerChunks src) "ngauges" (gs.length : Int) rfl
  simp only [gaugeWriteBody]
  rw [bind_apply_ok (show openDataFileM out src d =
    .ok () { d with outFile := some (bannerChunks src) } from rfl)]
  rw [bind_apply_ok (getattrM_apply hg1)]
  rw [bind_apply_ok (show liftE (pyLenE (PyVal.list gs))
    { d with outFile := some (bannerChunks src) } =
    .ok gs.length { d with outFile := some (bannerChunks src) } from rfl)]
  rw [bind_apply_ok hdw]
  rw [bind_apply_ok (show liftE (gaugeListE (PyVal.list gs))
    { d with outFile := some (bannerChunks src ++
      [formatLine (intRepr (gs.length : Int)) "ngauges" ""]) } =
    .ok gs { d with outFile := some (bannerChunks src ++
      [formatLine (intRepr (gs.length : Int)) "ngauges" ""]) } from rfl)]
  rw [bind_apply_ok hloop]
  exact closeDataFileM_apply rfl

/-- C6 counterexample: two gauges sharing number 3 make `GaugeData.write`
raise `Exception("Non unique gauge numbers specified.")` before anything
is written (the state is untouched), but the message does NOT name the
duplicate identifier — it contains no character `3` at all. -/
theorem c6_counterexample :
    runError (gaugeWrite "gauges.data" "setrun.py") c6stateDup =
      some (.exception "Non unique gauge numbers specified.") ∧
    runState (gaugeWrite "gauges.data" "setrun.py") c6stateDup = c6stateDup ∧
    ("Non unique gauge numbers specified.".data.contains (Char.ofNat 51)) = false :=
  ⟨rfl, rfl, rfl⟩

/-- C6 (amended): on a gauge record whose `gauges` list has well-formed
entries, if two entries share a gauge number, `GaugeData.write` raises
`Exception("Non unique gauge numbers specified.")` — a message that does
not name the duplicate — with the record untouched (so before any output
content is written); if the numbers are pairwise distinct the writer
succeeds and leaves the file closed. -/
theorem c6_amended (d : ClawData) (gs nums : List PyVal) (out src : String)
    (hg : getVal d "gauges" = some (.list gs))
    (hn : gaugeNumbersE gs = Except.ok nums) :
    (nums.length ≠ nums.eraseDups.length →
      gaugeWrite out src d =
        .error (.exception "Non unique gauge numbers specified.") d) ∧
    (nums.length = nums.eraseDups.length →
      (∀ g ∈ gs, ∃ s, gaugeLineE g = Except.ok s) →
      gaugeWrite out src d = .ok () { d with outFile := Option.none }) := by
  constructor
  · intro hd
    have hlen : 0 < gs.length := by
      cases gs with
      | nil =>
        exfalso
        have h0 : Except.ok ([] : List PyVal) = Except.ok nums := hn
        have h1 : ([] : List PyVal) = nums := by injection h0
        rw [← h1] at hd
        exact hd rfl
      | cons g gs2 => simp
    simp only [gaugeWrite]
    rw [bind_apply_error (gaugeCheck_dup hg hn hlen hd)]
  · intro hd hl
    simp only [gaugeWrite]
    rw [bind_apply_ok (gaugeCheck_nodup hg hn hd)]
    exact gaugeWriteBody_ok out src hg hl

/-- C6 witness: a record with distinct gauge numbers 3 and 4 writes
successfully and ends with no open file. -/
theorem c6_witness :
    gaugeWrite "gauges.data" "setrun.py" c6stateOk =
      .ok () { c6stateOk with outFile := Option.none } :=
  (c6_amended c6stateOk [gaugeEntry3, gaugeEntry4] [.int 3, .int 4]
      "gauges.data" "setrun.py" rfl rfl).2 rfl (by
    intro g hgm
    simp only [List.mem_cons, List.not_mem_nil, or_false] at hgm
    rcases hgm with h | h <;> subst h <;> exact ⟨_, rfl⟩)

/-! ## Character and token lemmas for the line-format roundtrip -/

theorem dropWhile_isWs_all {l : List Char} (h : ∀ c ∈ l, isWs c = false) :
    l.dropWhile isWs = l := by
  cases l with
  | nil => rfl
  | cons c l' =>
    rw [List.dropWhile_cons, if_neg (by simp [h c (List.mem_cons_self c l')])]

theorem dropWhile_isWs_replicate (k : Nat) (x : List Char) :
    (List.replicate k ' ' ++ x).dropWhile isWs = x.dropWhile isWs := by
  induction k with
  | zero => rfl
  | succ k ih =>
    rw [List.replicate_succ, List.cons_append, List.dropWhile_cons, if_pos (by decide)]
    exact ih

theorem stripChars_fix {l : List Char} (h1 : l.dropWhile isWs = l)
    (h2 : l.reverse.dropWhile isWs = l.reverse) : stripChars l = l := by
  unfold stripChars
  rw [h1, h2, List.reverse_reverse]

theorem stripChars_append_spaces (k : Nat) {l : List Char}
    (h1 : l.dropWhile isWs = l) (h2 : l.reverse.dropWhile isWs = l.reverse) :
    stripChars (l ++ List.replicate k ' ') = l := by
  cases l with
  | nil =>
    show stripChars ([] ++ List.replicate k ' ') = []
    rw [List.nil_append]
    unfold stripChars
    rw [show (List.replicate k ' ' : List Char) = List.replicate k ' ' ++ [] from
      (List.append_nil _).symm]
    rw [dropWhile_isWs_replicate]
    rfl
  | cons c l' =>
    have hc : isWs c = false := by
      by_contra hC
      rw [List.dropWhile_cons, if_pos (by simpa using hC)] at h1
      have hsub : (l'.dropWhile isWs).Sublist l' := by apply List.dropWhile_sublist
      have := hsub.length_le
      rw [h1] at this
      simp at this
    unfold stripChars
    have e1 : ((c :: l') ++ List.replicate k ' ').dropWhile isWs =
        (c :: l') ++ List.replicate k ' ' := by
      rw [List.cons_append, List.dropWhile_cons, if_neg (by simp [hc]), ← List.cons_append]
    rw [e1, List.reverse_append, List.reverse_replicate, dropWhile_isWs_replicate,
      h2, List.reverse_reverse]

theorem wsTokens_ws_cons {c : Char} (hc : isWs c = true) (l : List Char) :
    wsTokens (c :: l) = wsTokens l := by
  simp [wsTokens, hc]

theorem wsTokens_all_ws : ∀ {l : List Char}, (∀ c ∈ l, isWs c = true) → wsTokens l = []
  | [], _ => rfl
  | c :: l', h => by
    rw [wsTokens_ws_cons (h c (List.mem_cons_self c l'))]
    exact wsTokens_all_ws (fun x hx => h x (List.mem_cons_of_mem c hx))

theorem wsTokens_single : ∀ {t : List Char}, t ≠ [] → (∀ c ∈ t, isWs c = false) →
    wsTokens t = [t]
  | [], hne, _ => absurd rfl hne
  | [c], _, ht => by
    have hc : isWs c = false := ht c (List.mem_singleton_self c)
    simp [wsTokens, hc]
  | c :: d :: t, _, ht => by
    have hc : isWs c = false := ht c (List.mem_cons_self c (d :: t))
    have hd : isWs d = false := ht d (List.mem_cons_of_mem c (List.mem_cons_self d t))
    have ih := @wsTokens_single (d :: t) (by simp)
      (fun x hx => ht x (List.mem_cons_of_mem c hx))
    show (if isWs c = true then wsTokens (d :: t)
      else if isWs d = true then [c] :: wsTokens (d :: t)
      else match wsTokens (d :: t) with
        | t' :: ts => (c :: t') :: ts
        | [] => [[c]]) = [c :: d :: t]
    rw [if_neg (by simp [hc]), if_neg (by simp [hd]), ih]

theorem wsTokens_token_append : ∀ (t : List Char) (w : Char) (rest : List Char),
    t ≠ [] → (∀ c ∈ t, isWs c = false) → isWs w = true →
    wsTokens (t ++ w :: rest) = t :: wsTokens rest
  | [], _, _, hne, _, _ => absurd rfl hne
  | [c], w, rest, _, ht, hw => by
    have hc : isWs c = false := ht c (List.mem_singleton_self c)
    simp [wsTokens, hc, hw]
  | c :: c2 :: t, w, rest, _, ht, hw => by
    have hc : isWs c = false := ht c (List.mem_cons_self c _)
    have hc2 : isWs c2 = false :=
      ht c2 (List.mem_cons_of_mem c (List.mem_cons_self c2 t))
    have ih := wsTokens_token_append (c2 :: t) w rest (by simp)
      (fun x hx => ht x (List.mem_cons_of_mem c hx)) hw
    simp only [List.cons_append] at ih
    show (if isWs c = true then wsTokens (c2 :: (t ++ w :: rest))
      else if isWs c2 = true then [c] :: wsTokens (c2 :: (t ++ w :: rest))
      else match wsTokens (c2 :: (t ++ w :: rest)) with
        | t' :: ts => (c :: t') :: ts
        | [] => [[c]]) = (c :: c2 :: t) :: wsTokens rest
    rw [if_neg (by simp [hc]), if_neg (by simp [hc2]), ih]

theorem wsTokens_token_ws_tail (t tail : List Char) (hne : t ≠ [])
    (ht : ∀ c ∈ t, isWs c = false) (htail : ∀ c ∈ tail, isWs c = true)
    (htne : tail ≠ []) : wsTokens (t ++ tail) = [t] := by
  cases tail with
  | nil => exact absurd rfl htne
  | cons w ws =>
    rw [wsTokens_token_append t w ws hne ht (htail w (List.mem_cons_self w ws))]
    rw [wsTokens_all_ws (fun x hx => htail x (List.mem_cons_of_mem w hx))]

theorem wsTokens_joinSep : ∀ (ts : List (List Char)),
    (∀ t ∈ ts, t ≠ [] ∧ ∀ c ∈ t, isWs c = false) →
    wsTokens (joinSep [' '] ts) = ts
  | [], _ => rfl
  | [t], h =>
    wsTokens_single (h t (List.mem_singleton_self t)).1 (h t (List.mem_singleton_self t)).2
  | t :: t2 :: ts, h => by
    show wsTokens (t ++ [' '] ++ joinSep [' '] (t2 :: ts)) = t :: t2 :: ts
    rw [List.append_assoc, List.singleton_append]
    rw [wsTokens_token_append t ' ' _ (h t (List.mem_cons_self t _)).1
      (h t (List.mem_cons_self t _)).2 (by decide)]
    rw [wsTokens_joinSep (t2 :: ts) (fun x hx => h x (List.mem_cons_of_mem t hx))]

theorem splitEq_no_eq : ∀ {l : List Char}, (∀ c ∈ l, c ≠ '=') → splitEq l = [l]
  | [], _ => rfl
  | [_], _ => rfl
  | c1 :: c2 :: rest, h => by
    have h1 : c1 ≠ '=' := h c1 (List.mem_cons_self c1 _)
    have ih := @splitEq_no_eq (c2 :: rest)
      (fun x hx => h x (List.mem_cons_of_mem c1 hx))
    simp only [splitEq]
    rw [if_neg (fun hand => h1 hand.1), ih]

theorem splitEq_append : ∀ {a : List Char} (b : List Char), (∀ c ∈ a, c ≠ '=') →
    splitEq (a ++ '=' :: ':' :: b) = a :: splitEq b
  | [], b, _ => by simp [splitEq]
  | c :: a', b, h => by
    have hc : c ≠ '=' := h c (List.mem_cons_self c a')
    have ih := @splitEq_append a' b (fun x hx => h x (List.mem_cons_of_mem c hx))
    cases a' with
    | nil =>
      simp only [List.nil_append] at ih
      show (if c = '=' ∧ '=' = ':' then [] :: splitEq (':' :: b)
        else match splitEq ('=' :: ':' :: b) with
          | [] => [[c]]
          | r :: rs => (c :: r) :: rs) = [c] :: splitEq b
      rw [if_neg (fun hand => hc hand.1), ih]
    | cons c2 a'' =>
      show (if c = '=' ∧ c2 = ':' then [] :: splitEq (a'' ++ '=' :: ':' :: b)
        else match splitEq (c2 :: (a'' ++ '=' :: ':' :: b)) with
          | [] => [[c]]
          | r :: rs => (c :: r) :: rs) = (c :: c2 :: a'') :: splitEq b
      rw [if_neg (fun hand => hc hand.1)]
      rw [show splitEq (c2 :: (a'' ++ '=' :: ':' :: b)) =
        (c2 :: a'') :: splitEq b from ih]

theorem mem_joinSep {sep : List Char} {c : Char} : ∀ {ts : List (List Char)},
    c ∈ joinSep sep ts → (∃ t ∈ ts, c ∈ t) ∨ c ∈ sep
  | [], h => by simp [joinSep] at h
  | [t], h => Or.inl ⟨t, List.mem_singleton_self t, h⟩
  | t :: t2 :: ts, h => by
    replace h : c ∈ t ++ sep ++ joinSep sep (t2 :: ts) := h
    rcases List.mem_append.mp h with h1 | h2
    · rcases List.mem_append.mp h1 with h3 | h4
      · exact Or.inl ⟨t, List.mem_cons_self t _, h3⟩
      · exact Or.inr h4
    · rcases @mem_joinSep sep c (t2 :: ts) h2 with ⟨u, hu, hcu⟩ | hs
      · exact Or.inl ⟨u, List.mem_cons_of_mem t hu, hcu⟩
      · exact Or.inr hs

theorem goodTokB_spec {l : List Char} (h : goodTokB l = true) :
    l ≠ [] ∧ ∀ c ∈ l, isWs c = false ∧ c ≠ ',' ∧ c ≠ '=' := by
  simp only [goodTokB, Bool.and_eq_true, List.all_eq_true, Bool.not_eq_true',
    decide_eq_true_eq] at h
  refine ⟨?_, fun c hc => ?_⟩
  · intro he
    rw [he] at h
    simp at h
  · obtain ⟨_, hall⟩ := h
    have := hall c hc
    exact ⟨this.1.1, this.1.2, this.2⟩

theorem goodTokB_of_chars {l : List Char} (hne : l ≠ [])
    (h : ∀ c ∈ l, isWs c = false ∧ c ≠ ',' ∧ c ≠ '=') : goodTokB l = true := by
  simp only [goodTokB, Bool.and_eq_true, List.all_eq_true, Bool.not_eq_true',
    decide_eq_true_eq]
  refine ⟨by simpa using hne, fun c hc => ?_⟩
  exact ⟨⟨(h c hc).1, (h c hc).2.1⟩, (h c hc).2.2⟩

/-! ## The decimal repr/parse roundtrip -/

theorem natToRevDigitsAux_ne_nil {fuel n : Nat} (h : 0 < fuel) :
    natToRevDigitsAux fuel n ≠ [] := by
  cases fuel with
  | zero => omega
  | succ fuel =>
    simp only [natToRevDigitsAux]
    split <;> simp

theorem natToRevDigitsAux_digits : ∀ {fuel n : Nat}, n < fuel →
    ∀ d ∈ natToRevDigitsAux fuel n, d < 10 := by
  intro fuel
  induction fuel with
  | zero => omega
  | succ fuel ih =>
    intro n hn d hd
    simp only [natToRevDigitsAux] at hd
    by_cases h10 : n < 10
    · rw [if_pos h10] at hd
      simp at hd
      omega
    · rw [if_neg h10] at hd
      rcases List.mem_cons.mp hd with h1 | h2
      · subst h1
        exact Nat.mod_lt n (by omega)
      · exact ih (by omega) d h2

theorem digitCh_props {d : Nat} (h : d < 10) :
    isDigitCh (digitCh d) = true ∧ (digitCh d).toNat - 48 = d ∧
    isWs (digitCh d) = false ∧ digitCh d ≠ ',' ∧ digitCh d ≠ '=' ∧
    digitCh d ≠ '-' ∧ digitCh d ≠ '+' := by
  interval_cases d <;> exact ⟨by decide, by decide, by decide, by decide, by decide,
    by decide, by decide⟩

theorem natToRevDigitsAux_foldr : ∀ {fuel n : Nat}, n < fuel →
    ((natToRevDigitsAux fuel n).map digitCh).foldr
      (fun c acc => acc * 10 + (c.toNat - 48)) 0 = n := by
  intro fuel
  induction fuel with
  | zero => omega
  | succ fuel ih =>
    intro n hn
    simp only [natToRevDigitsAux]
    by_cases h10 : n < 10
    · rw [if_pos h10]
      simp only [List.map_cons, List.map_nil, List.foldr_cons, List.foldr_nil]
      rw [(digitCh_props h10).2.1]
      omega
    · rw [if_neg h10]
      simp only [List.map_cons, List.foldr_cons]
      rw [ih (show n / 10 < fuel by omega)]
      rw [(digitCh_props (Nat.mod_lt n (by omega))).2.1]
      omega

theorem natRepr_mem {n : Nat} {c : Char} (h : c ∈ (natRepr n).data) :
    ∃ d, d < 10 ∧ c = digitCh d := by
  replace h : c ∈ ((natToRevDigitsAux (n + 1) n).reverse).map digitCh := h
  obtain ⟨d, hd, rfl⟩ := List.mem_map.mp h
  exact ⟨d, natToRevDigitsAux_digits (by omega) d (List.mem_reverse.mp hd), rfl⟩

theorem natRepr_ne_nil (n : Nat) : (natRepr n).data ≠ [] := by
  show ((natToRevDigitsAux (n + 1) n).reverse).map digitCh ≠ []
  simp only [ne_eq, List.map_eq_nil_iff, List.reverse_eq_nil_iff]
  exact natToRevDigitsAux_ne_nil (by omega)

theorem natRepr_foldl (n : Nat) :
    (natRepr n).data.foldl (fun a c => a * 10 + (c.toNat - 48)) 0 = n := by
  show (((natToRevDigitsAux (n + 1) n).reverse).map digitCh).foldl
    (fun a c => a * 10 + (c.toNat - 48)) 0 = n
  rw [List.map_reverse, List.foldl_reverse]
  exact natToRevDigitsAux_foldr (by omega)

theorem parseNatTok_natRepr (n : Nat) : parseNatTok (natRepr n).data = some n := by
  unfold parseNatTok
  rw [if_pos ⟨natRepr_ne_nil n, List.all_eq_true.mpr (fun c hc => by
    obtain ⟨d, hd, rfl⟩ := natRepr_mem hc
    exact (digitCh_props hd).1)⟩]
  exact congrArg some (natRepr_foldl n)

theorem parseIntTok_intRepr (n : Int) : parseIntTok (intRepr n).data = some n := by
  by_cases hn : n < 0
  · have hdata : (intRepr n).data = '-' :: (natRepr n.natAbs).data := by
      unfold intRepr
      rw [if_pos hn]
    rw [hdata]
    show (parseNatTok (natRepr n.natAbs).data).map (fun m => -(m : Int)) = some n
    rw [parseNatTok_natRepr]
    show some (-(n.natAbs : Int)) = some n
    exact congrArg some (by omega)
  · obtain ⟨c, cs, hdata⟩ := List.exists_cons_of_ne_nil (natRepr_ne_nil n.natAbs)
    have hdigit : isDigitCh c = true := by
      obtain ⟨d, hd, rfl⟩ := natRepr_mem (show c ∈ (natRepr n.natAbs).data by
        rw [hdata]; exact List.mem_cons_self c cs)
      exact (digitCh_props hd).1
    have hc1 : c ≠ '-' := by
      intro he
      rw [he] at hdigit
      exact absurd hdigit (by decide)
    have hc2 : c ≠ '+' := by
      intro he
      rw [he] at hdigit
      exact absurd hdigit (by decide)
    have hdata2 : (intRepr n).data = c :: cs := by
      unfold intRepr
      rw [if_neg hn]
      exact hdata
    rw [hdata2]
    simp only [parseIntTok]
    rw [if_neg hc1, if_neg hc2, ← hdata, parseNatTok_natRepr]
    show some ((n.natAbs : Int)) = some n
    exact congrArg some (by omega)

theorem parseScalarTok_intRepr (n : Int) : parseScalarTok (intRepr n) = .int n := by
  unfold parseScalarTok
  rw [parseIntTok_intRepr]

theorem intRepr_chars {n : Int} {c : Char} (h : c ∈ (intRepr n).data) :
    c = '-' ∨ ∃ d, d < 10 ∧ c = digitCh d := by
  unfold intRepr at h
  by_cases hn : n < 0
  · rw [if_pos hn] at h
    replace h : c ∈ '-' :: (natRepr n.natAbs).data := h
    rcases List.mem_cons.mp h with rfl | h2
    · exact Or.inl rfl
    · exact Or.inr (natRepr_mem h2)
  · rw [if_neg hn] at h
    exact Or.inr (natRepr_mem h)

theorem intRepr_ne_nil (n : Int) : (intRepr n).data ≠ [] := by
  unfold intRepr
  by_cases hn : n < 0
  · rw [if_pos hn]
    simp
  · rw [if_neg hn]
    exact natRepr_ne_nil n.natAbs

theorem goodTokB_intRepr (n : Int) : goodTokB (intRepr n).data = true :=
  goodTokB_of_chars (intRepr_ne_nil n) (fun c hc => by
    rcases intRepr_chars hc with rfl | ⟨d, hd, rfl⟩
    · exact ⟨by decide, by decide, by decide⟩
    · obtain ⟨_, _, h3, h4, h5, _, _⟩ := digitCh_props hd
      exact ⟨h3, h4, h5⟩)

/-! ## The field line: value substring and single-token decoding -/

theorem formatLine_data (sv name : String) :
    (formatLine sv name "").data =
      (sv.data ++ List.replicate (20 - sv.data.length) ' ' ++ [' ']) ++
        '=' :: ':' :: (' ' :: (name.data ++
          List.replicate (20 - name.data.length) ' ' ++ ['\n'])) := by
  show (pyLjust sv 20 ++ " =: " ++ pyLjust name 20 ++ "\n").data = _
  simp only [String.data_append]
  show (sv.data ++ List.replicate (20 - sv.data.length) ' ') ++
    [' ', '=', ':', ' '] ++ (name.data ++ List.replicate (20 - name.data.length) ' ') ++
    ['\n'] = _
  simp [List.append_assoc]

theorem valuePartOf_formatLine (sv name : String)
    (hsv : ∀ c ∈ sv.data, c ≠ '=') :
    valuePartOf (formatLine sv name "") =
      ⟨sv.data ++ List.replicate (20 - sv.data.length) ' ' ++ [' ']⟩ := by
  have hA : ∀ c ∈ sv.data ++ List.replicate (20 - sv.data.length) ' ' ++ [' '],
      c ≠ '=' := by
    intro c hc
    rcases List.mem_append.mp hc with hc1 | hc2
    · rcases List.mem_append.mp hc1 with hc3 | hc4
      · exact hsv c hc3
      · rw [List.eq_of_mem_replicate hc4]
        decide
    · rw [List.mem_singleton.mp hc2]
      decide
  unfold valuePartOf
  rw [formatLine_data, splitEq_append _ hA]

theorem parseValue_padded (t : List Char) (k : Nat)
    (h1 : t.dropWhile isWs = t) (h2 : t.reverse.dropWhile isWs = t.reverse) :
    parseValue ⟨t ++ List.replicate k ' ' ++ [' ']⟩ = parseValue ⟨t⟩ := by
  have hL : pyStrip ⟨t ++ List.replicate k ' ' ++ [' ']⟩ = (⟨t⟩ : String) := by
    show (⟨stripChars (t ++ List.replicate k ' ' ++ [' '])⟩ : String) = ⟨t⟩
    rw [List.append_assoc, ← List.replicate_succ']
    rw [stripChars_append_spaces (k + 1) h1 h2]
  have hR : pyStrip (⟨t⟩ : String) = (⟨t⟩ : String) := by
    show (⟨stripChars t⟩ : String) = ⟨t⟩
    rw [stripChars_fix h1 h2]
  simp only [parseValue, hL, hR]

theorem parseValue_single_token (t : String) (hne : t.data ≠ [])
    (ht : ∀ c ∈ t.data, isWs c = false) :
    parseValue t = parseScalarTok t := by
  have hp : pyStrip t = t := by
    show (⟨stripChars t.data⟩ : String) = t
    rw [stripChars_fix (dropWhile_isWs_all ht)
      (dropWhile_isWs_all (fun c hc => ht c (List.mem_reverse.mp hc)))]
  simp only [parseValue, hp]
  rw [wsTokens_single hne ht]

theorem dataEncode_int (n : Int) : dataEncode (.int n) = intRepr n := rfl

theorem dataEncode_float (t : String) : dataEncode (.float t) = t := rfl

theorem dataEncode_str (s : String) : dataEncode (.str s) = pyStrRepr s := rfl

theorem scalarLineRoundtrip_eq (v : PyVal) (name : String)
    (h : goodTokB (dataEncode v).data = true) :
    scalarLineRoundtrip v name = parseScalarTok (dataEncode v) := by
  obtain ⟨hne, hclean⟩ := goodTokB_spec h
  unfold scalarLineRoundtrip
  rw [valuePartOf_formatLine _ _ (fun c hc => (hclean c hc).2.2)]
  rw [parseValue_padded _ _ (dropWhile_isWs_all (fun c hc => (hclean c hc).1))
    (dropWhile_isWs_all (fun c hc => (hclean c (List.mem_reverse.mp hc)).1))]
  exact parseValue_single_token (dataEncode v) hne (fun c hc => (hclean c hc).1)

/-! ## Tokens that decode as strings -/

theorem splitCh_ne_nil (ch : Char) : ∀ (l : List Char), splitCh ch l ≠ []
  | [] => by simp [splitCh]
  | c :: cs => by
    simp only [splitCh]
    split
    · simp
    · split <;> simp

theorem parseScalarTok_quoted (t : String) (c : Char) (cs : List Char)
    (hd : t.data = c :: cs) (hc : c = squote ∨ c = dquote) :
    parseScalarTok t = .str t := by
  obtain ⟨p1, p2, p3, p4, p5, p6, p7, p8⟩ :
      isDigitCh c = false ∧ c ≠ '-' ∧ c ≠ '+' ∧ c ≠ 'T' ∧ c ≠ 'F' ∧
      c.toLower ≠ 'i' ∧ c.toLower ≠ 'n' ∧ c.toLower ≠ 'e' := by
    rcases hc with rfl | rfl <;> exact ⟨by decide, by decide, by decide, by decide,
      by decide, by decide, by decide, by decide⟩
  have hmant : ∀ r : List Char, floatMantissaOk (c.toLower :: r) = false := by
    intro r
    have : (isDigitCh c.toLower || decide (c.toLower = '.')) = false := by
      rcases hc with rfl | rfl <;> decide
    simp [floatMantissaOk, this]
  have hint : parseIntTok t.data = Option.none := by
    rw [hd]
    simp only [parseIntTok]
    rw [if_neg p2, if_neg p3]
    simp [parseNatTok, p1]
  have hfa : floatAccepts t.data = false := by
    rw [hd]
    simp only [floatAccepts]
    have hds : dropSign (c :: cs) = c :: cs := by
      simp [dropSign, p2, p3]
    rw [hds]
    rw [if_neg (by
      simp only [List.map_cons, Bool.or_eq_true, decide_eq_true_eq]
      intro hcond
      rcases hcond with hh | h
      · rcases hh with h | h
        · injection h with h1 h2
          exact p6 h1
        · injection h with h1 h2
          exact p6 h1
      · injection h with h1 h2
        exact p7 h1)]
    obtain ⟨r, rs, hrs⟩ :=
      List.exists_cons_of_ne_nil (splitCh_ne_nil 'e' (cs.map Char.toLower))
    simp only [List.map_cons, splitCh]
    rw [if_neg p8, hrs]
    cases rs with
    | nil => simp [hmant]
    | cons r2 rs' =>
      cases rs' with
      | nil => simp [hmant]
      | cons r3 rs'' => rfl
  unfold parseScalarTok
  rw [hint, hfa]
  show (match t.data with
    | c :: _ => if c = 'T' then PyVal.bool true
        else if c = 'F' then PyVal.bool false else PyVal.str t
    | [] => PyVal.str t) = PyVal.str t
  rw [hd]
  simp [p4, p5]

/-! ## Claim C3 — the scalar line-format roundtrip -/

/-- C3 counterexample: the string scalar `"a"` does not survive the
encode/decode roundtrip: the field writer emits its `repr`, so the
heuristic parser returns the quoted token as the string value. -/
theorem c3_counterexample :
    scalarLineRoundtrip (.str "a") "label" = .str ⟨[squote, 'a', squote]⟩ ∧
    PyVal.str ⟨[squote, 'a', squote]⟩ ≠ PyVal.str "a" :=
  ⟨rfl, by
    intro h
    rw [PyVal.str.injEq] at h
    exact absurd h (by decide)⟩

/-- C3 (amended): the encode/decode roundtrip through the
`value =: name` line preserves int scalars and bool scalars exactly, and
preserves a float's repr token (for any clean token the int parser
rejects and `float()` accepts); a string scalar, however, comes back as
its quote-wrapped `repr`, not as the original string. -/
theorem c3_amended :
    (∀ (n : Int) (name : String), scalarLineRoundtrip (.int n) name = .int n) ∧
    (∀ (b : Bool) (name : String), scalarLineRoundtrip (.bool b) name = .bool b) ∧
    (∀ (t name : String), goodTokB t.data = true →
      parseIntTok t.data = Option.none → floatAccepts t.data = true →
      scalarLineRoundtrip (.float t) name = .float t) ∧
    (∀ (s name : String), goodTokB (pyStrRepr s).data = true →
      scalarLineRoundtrip (.str s) name = .str (pyStrRepr s)) := by
  refine ⟨fun n name => ?_, fun b name => ?_, fun t name hg hint hfa => ?_,
    fun s name hg => ?_⟩
  · rw [scalarLineRoundtrip_eq _ _ (by rw [dataEncode_int]; exact goodTokB_intRepr n)]
    rw [dataEncode_int]
    exact parseScalarTok_intRepr n
  · cases b
    · rw [scalarLineRoundtrip_eq _ _ (by decide)]
      rfl
    · rw [scalarLineRoundtrip_eq _ _ (by decide)]
      rfl
  · rw [scalarLineRoundtrip_eq _ _ (by rw [dataEncode_float]; exact hg)]
    rw [dataEncode_float]
    simp [parseScalarTok, hint, hfa]
  · rw [scalarLineRoundtrip_eq _ _ (by rw [dataEncode_str]; exact hg)]
    rw [dataEncode_str]
    by_cases hq : (s.data.contains squote && !s.data.contains dquote) = true
    · refine parseScalarTok_quoted _ dquote (s.data ++ [dquote]) ?_ (Or.inr rfl)
      show (pyStrRepr s).data = _
      unfold pyStrRepr
      rw [if_pos hq]
    · refine parseScalarTok_quoted _ squote (s.data ++ [squote]) ?_ (Or.inl rfl)
      show (pyStrRepr s).data = _
      unfold pyStrRepr
      rw [if_neg hq]

/-- C3 witness: concrete scalars of each kind through the roundtrip. -/
theorem c3_witness :
    scalarLineRoundtrip (.int (-12)) "n" = .int (-12) ∧
    scalarLineRoundtrip (.bool true) "b" = .bool true ∧
    scalarLineRoundtrip (.float "1.5") "f" = .float "1.5" ∧
    scalarLineRoundtrip (.str "a") "s" = .str (pyStrRepr "a") :=
  ⟨c3_amended.1 (-12) "n", c3_amended.2.1 true "b",
   c3_amended.2.2.1 "1.5" "f" (by decide) rfl rfl,
   c3_amended.2.2.2 "a" "s" (by decide)⟩

/-! ## Claim C4 — the list line roundtrip through read -/

theorem pyReprList_eq_map : ∀ (l : List PyVal),
    pyRepr.pyReprList l = l.map (fun e => (pyRepr e).data)
  | [] => rfl
  | v :: vs => by
    show (pyRepr v).data :: pyRepr.pyReprList vs = _
    rw [pyReprList_eq_map vs, List.map_cons]

theorem removeCommas_of_no_comma {t : List Char} (h : ∀ c ∈ t, c ≠ ',') :
    removeCommas t = t :=
  List.filter_eq_self.mpr (fun c hc => by simp [h c hc])

theorem removeCommas_joinSep : ∀ (ts : List (List Char)),
    (∀ t ∈ ts, ∀ c ∈ t, c ≠ ',') →
    removeCommas (joinSep [',', ' '] ts) = joinSep [' '] ts
  | [], _ => rfl
  | [t], h => removeCommas_of_no_comma (h t (List.mem_singleton_self t))
  | t :: t2 :: ts, h => by
    show removeCommas (t ++ [',', ' '] ++ joinSep [',', ' '] (t2 :: ts)) =
      t ++ [' '] ++ joinSep [' '] (t2 :: ts)
    unfold removeCommas
    rw [List.filter_append, List.filter_append]
    rw [show List.filter (fun c => decide (c ≠ ',')) t = t from
      removeCommas_of_no_comma (h t (List.mem_cons_self t _))]
    rw [show List.filter (fun c => decide (c ≠ ',')) (joinSep [',', ' '] (t2 :: ts)) =
      joinSep [' '] (t2 :: ts) from
      removeCommas_joinSep (t2 :: ts) (fun x hx => h x (List.mem_cons_of_mem t hx))]
    rfl

theorem dataEncode_list (l : List PyVal)
    (h : ∀ e ∈ l, ∀ c ∈ (pyRepr e).data, c ≠ ',') :
    (dataEncode (.list l)).data = joinSep [' '] (l.map fun e => (pyRepr e).data) := by
  show removeCommas (((pyRepr (.list l)).data.drop 1).dropLast) = _
  show removeCommas ((('[' :: (joinSep [',', ' '] (pyRepr.pyReprList l) ++
    [']'])).drop 1).dropLast) = _
  rw [List.drop_succ_cons, List.drop_zero, List.dropLast_concat, pyReprList_eq_map]
  exact removeCommas_joinSep _ (fun t ht c hc => by
    obtain ⟨e, he, rfl⟩ := List.mem_map.mp ht
    exact h e he c hc)

theorem joinSep_head (sep t : List Char) (ts : List (List Char)) :
    ∃ z, joinSep sep (t :: ts) = t ++ z := by
  cases ts with
  | nil => exact ⟨[], (List.append_nil t).symm⟩
  | cons t2 ts' =>
    exact ⟨sep ++ joinSep sep (t2 :: ts'), by
      show t ++ sep ++ joinSep sep (t2 :: ts') = _
      rw [List.append_assoc]⟩

theorem joinSep_last (sep : List Char) : ∀ (ts : List (List Char)) (t : List Char),
    ∃ z t2, t2 ∈ t :: ts ∧ joinSep sep (t :: ts) = z ++ t2
  | [], t => ⟨[], t, List.mem_singleton_self t, rfl⟩
  | t2 :: ts', t => by
    obtain ⟨z, t3, ht3, hz⟩ := joinSep_last sep ts' t2
    refine ⟨t ++ sep ++ z, t3, List.mem_cons_of_mem t ht3, ?_⟩
    show t ++ sep ++ joinSep sep (t2 :: ts') = _
    rw [hz, List.append_assoc, List.append_assoc, List.append_assoc]

theorem joinSep_dropWhile_fix (ts : List (List Char))
    (h : ∀ t ∈ ts, t ≠ [] ∧ ∀ c ∈ t, isWs c = false) :
    (joinSep [' '] ts).dropWhile isWs = joinSep [' '] ts ∧
    (joinSep [' '] ts).reverse.dropWhile isWs = (joinSep [' '] ts).reverse := by
  cases ts with
  | nil => exact ⟨rfl, rfl⟩
  | cons t ts' =>
    obtain ⟨z, hz⟩ := joinSep_head [' '] t ts'
    obtain ⟨z2, t2, ht2, hz2⟩ := joinSep_last [' '] ts' t
    constructor
    · rw [hz]
      obtain ⟨c, t', rfl⟩ :=
        List.exists_cons_of_ne_nil (h t (List.mem_cons_self t ts')).1
      rw [List.cons_append, List.dropWhile_cons,
        if_neg (by simp [(h _ (List.mem_cons_self _ ts')).2 c (List.mem_cons_self c t')])]
    · rw [hz2, List.reverse_append]
      have ht2ne : t2.reverse ≠ [] := by
        simp [(h t2 ht2).1]
      obtain ⟨d, r, hdr⟩ := List.exists_cons_of_ne_nil ht2ne
      rw [hdr, List.cons_append, List.dropWhile_cons, if_neg (by
        have hdm : d ∈ t2 := List.mem_reverse.mp (hdr ▸ List.mem_cons_self d r)
        simp [(h t2 ht2).2 d hdm])]

theorem parseValue_list_padded (l : List PyVal) (e1 e2 : PyVal) (rest : List PyVal)
    (k : Nat) (hl : l = e1 :: e2 :: rest) (he : ∀ e ∈ l, elemOk e) :
    parseValue ⟨(dataEncode (.list l)).data ++ List.replicate k ' ' ++ [' ']⟩ =
      .list l := by
  subst hl
  have hts : ∀ t ∈ (e1 :: e2 :: rest).map (fun e => (pyRepr e).data),
      t ≠ [] ∧ ∀ c ∈ t, isWs c = false := by
    intro t ht
    obtain ⟨e, hee, rfl⟩ := List.mem_map.mp ht
    obtain ⟨hne, hcl⟩ := goodTokB_spec (he e hee).1
    exact ⟨hne, fun c hc => (hcl c hc).1⟩
  have hnc : ∀ e ∈ (e1 :: e2 :: rest), ∀ c ∈ (pyRepr e).data, c ≠ ',' := by
    intro e hee c hc
    exact ((goodTokB_spec (he e hee).1).2 c hc).2.1
  obtain ⟨hfix1, hfix2⟩ := joinSep_dropWhile_fix _ hts
  rw [dataEncode_list _ hnc, parseValue_padded _ _ hfix1 hfix2]
  have hstr : pyStrip ⟨joinSep [' ']
      ((e1 :: e2 :: rest).map fun e => (pyRepr e).data)⟩ =
      (⟨joinSep [' '] ((e1 :: e2 :: rest).map fun e => (pyRepr e).data)⟩ : String) := by
    show (⟨stripChars _⟩ : String) = _
    rw [stripChars_fix hfix1 hfix2]
  simp only [parseValue, hstr]
  rw [wsTokens_joinSep _ hts]
  simp only [List.map_cons]
  show PyVal.list (((pyRepr e1).data :: (pyRepr e2).data ::
    rest.map fun e => (pyRepr e).data).map fun t => parseScalarTok ⟨t⟩) = _
  rw [show ((pyRepr e1).data :: (pyRepr e2).data ::
    rest.map fun e => (pyRepr e).data) = (e1 :: e2 :: rest).map
    (fun e => (pyRepr e).data) from by simp]
  rw [List.map_map]
  refine congrArg PyVal.list ?_
  refine (List.map_congr_left fun e hee => ?_).trans (List.map_id' _)
  exact (he e hee).2

theorem readLine_fresh (d : ClawData) (sv name : String) (v : PyVal)
    (hsv : ∀ c ∈ sv.data, c ≠ '=')
    (hname : goodTokB name.data = true)
    (hattr : hasAttribute d name = false)
    (hval : parseValue ⟨sv.data ++ List.replicate (20 - sv.data.length) ' ' ++
      [' ']⟩ = v) :
    readLine true d (formatLine sv name "") = .ok (addAttribute d name v) := by
  obtain ⟨hnne, hncl⟩ := goodTokB_spec hname
  have hA : ∀ c ∈ sv.data ++ List.replicate (20 - sv.data.length) ' ' ++ [' '],
      c ≠ '=' := by
    intro c hc
    rcases List.mem_append.mp hc with hc1 | hc2
    · rcases List.mem_append.mp hc1 with hc3 | hc4
      · exact hsv c hc3
      · rw [List.eq_of_mem_replicate hc4]
        decide
    · rw [List.mem_singleton.mp hc2]
      decide
  have hB : ∀ c ∈ (' ' :: (name.data ++ List.replicate (20 - name.data.length) ' ' ++
      ['\n'])), c ≠ '=' := by
    intro c hc
    rcases List.mem_cons.mp hc with rfl | hc2
    · decide
    · rcases List.mem_append.mp hc2 with hc3 | hc4
      · rcases List.mem_append.mp hc3 with hc5 | hc6
        · exact (hncl c hc5).2.2
        · rw [List.eq_of_mem_replicate hc6]
          decide
      · rw [List.mem_singleton.mp hc4]
        decide
  have hwst : wsTokens (' ' :: (name.data ++
      List.replicate (20 - name.data.length) ' ' ++ ['\n'])) = [name.data] := by
    rw [wsTokens_ws_cons (by decide), List.append_assoc]
    refine wsTokens_token_ws_tail name.data _ hnne (fun c hc => (hncl c hc).1)
      (fun c hc => ?_) (by simp)
    rcases List.mem_append.mp hc with hc1 | hc2
    · rw [List.eq_of_mem_replicate hc1]
      decide
    · rw [List.mem_singleton.mp hc2]
      decide
  unfold readLine
  rw [formatLine_data, splitEq_append _ hA, splitEq_no_eq hB]
  simp only [hwst, Bool.or_true, if_true]
  rw [show (⟨name.data⟩ : String) = name from rfl]
  rw [hattr]
  simp only [Bool.false_eq_true, if_false]
  rw [hval]

/-- C4 counterexample: the singleton list `[5]` is written as the single
token `5`, which `read` (force) decodes as the scalar int `5`, not as a
one-element list: the claimed list roundtrip fails on length-1 lists. -/
theorem c4_counterexample :
    clawRead emptyClawData [c4line] true =
      .ok (addAttribute emptyClawData "vals" (.int 5)) ∧
    isListVal (.int 5) = false :=
  ⟨rfl, rfl⟩

/-- C4 (amended): a list field is written as one line, and for lists with
at least two clean-token elements the line decodes (via `read` with
`force = true`) back to a list with the same length and elements; for
one-element lists the decoded value collapses to the scalar element. -/
theorem c4_amended :
    (∀ (d : ClawData) (chs : List String) (n : String) (l : List PyVal),
      getVal d n = some (.list l) → d.outFile = some chs →
      dw n d = .ok () { d with
        outFile := some (chs ++ [formatLine (dataEncode (.list l)) n ""]) }) ∧
    (∀ (d : ClawData) (l : List PyVal) (e1 e2 : PyVal) (rest : List PyVal)
      (name : String),
      l = e1 :: e2 :: rest →
      (∀ e ∈ l, elemOk e) →
      goodTokB name.data = true →
      hasAttribute d name = false →
      clawRead d [formatLine (dataEncode (.list l)) name ""] true =
        .ok (addAttribute d name (.list l))) := by
  constructor
  · intro d chs n l hv hof
    exact dw_apply hv hof
  · intro d l e1 e2 rest name hl he hn ha
    have hsv : ∀ c ∈ (dataEncode (.list l)).data, c ≠ '=' := by
      intro c hc
      rw [dataEncode_list l (fun e hee x hx =>
        ((goodTokB_spec (he e hee).1).2 x hx).2.1)] at hc
      rcases mem_joinSep hc with ⟨t, ht, hct⟩ | hs
      · obtain ⟨e, hee, rfl⟩ := List.mem_map.mp ht
        exact ((goodTokB_spec (he e hee).1).2 c hct).2.2
      · rw [List.mem_singleton.mp hs]
        decide
    have hread := readLine_fresh d (dataEncode (.list l)) name (.list l) hsv hn ha
      (parseValue_list_padded l e1 e2 rest _ hl he)
    show List.foldlM (readLine true) d [formatLine (dataEncode (.list l)) name ""] =
      _
    simp [List.foldlM, hread]

/-- C4 witness: the three-element list `[1, 2, 3]` roundtrips through its
single written line and `read` with force. -/
theorem c4_witness :
    clawRead emptyClawData
      [formatLine (dataEncode (.list [.int 1, .int 2, .int 3])) "vals" ""] true =
      .ok (addAttribute emptyClawData "vals" (.list [.int 1, .int 2, .int 3])) :=
  c4_amended.2 emptyClawData [.int 1, .int 2, .int 3] (.int 1) (.int 2) [.int 3]
    "vals" rfl (by
      intro e he
      simp only [List.mem_cons, List.not_mem_nil, or_false] at he
      rcases he with rfl | rfl | rfl <;> exact ⟨by decide, rfl⟩) (by decide) rfl

end Clawdata
